import Mathlib

/-!
Verification of the call-session core of a team-collaboration app.

The embedded code is the WebRTC call/signaling logic of `src/store.tsx`:
the signaling broadcast handler (OFFER / ANSWER / CANDIDATE / HANGUP cases),
`sendSignal` and the subscribe-status flush, `startGroupCall`, `addToCall`,
`acceptIncomingCall`, `rejectIncomingCall`, `endCall`, `handleRemoteHangup`,
`cleanupCall`, the per-peer replace-vs-add track loops of `toggleMic` /
`toggleCamera`, and the `calls`-table availability probe and its guards.

External runtime objects (RTCPeerConnection, media tracks, the Supabase
store and broadcast channel) are modelled by their visible effects: a
peer connection records the candidate-add calls made against it and the
description flags the code sets; store writes are recorded as lists of
inserted records; outbound signals are recorded in send order.
-/

namespace CallCore

/-- Kinds of signaling wire messages (the `type` field of `SignalData`). -/
inductive SignalType where
  | USER_ONLINE
  | OFFER
  | ANSWER
  | CANDIDATE
  | HANGUP
  deriving DecidableEq, Repr

/-- An ICE candidate payload, abstracted to its identity. -/
abbrev Candidate := Nat

/-- A local media track: its kind (`"audio"` / `"video"`) and an identity. -/
structure Track where
  kind : String
  tid : Nat
  deriving DecidableEq, Repr

/-- Model of one `RTCPeerConnection` as `src/store.tsx` drives it:
`hasRemoteDescription` / `hasLocalDescription` mirror the

`setRemoteDescription` / `setLocalDescription` calls, `addedCandidates`
records every `addIceCandidate` call in order, `senders` holds the tracks
attached via `addTrack` / `replaceTrack` (the video transceiver added in
`createPeerConnection` carries no track, and both track loops look only at
senders whose `track` is non-null, so trackless senders are omitted), and
`closed` mirrors `close()`. -/
structure PeerConn where
  hasRemoteDescription : Bool := false
  hasLocalDescription : Bool := false
  addedCandidates : List Candidate := []
  senders : List Track := []
  closed : Bool := false
  deriving DecidableEq, Repr

/-- The `activeCallData` state in `src/store.tsx`: invited and joined participant
ids plus the video flag. -/
structure CallData where
  invitedIds : List String
  joinedIds : List String
  isVideo : Bool
  deriving DecidableEq, Repr

/-- The staged incoming-call invite (`incomingCall` state). -/
structure IncomingCall where
  callerId : String
  isVideo : Bool
  timestamp : Int
  offer : Option Nat
  callId : Option String
  deriving DecidableEq, Repr

/-- The payload of an inbound OFFER (`signalPayload` in the OFFER case). -/
structure OfferPayload where
  sdp : Option Nat
  isVideo : Bool
  callId : Option String
  deriving DecidableEq, Repr

/-- An outbound signaling message as handed to `sendSignal`. -/
structure OutSignal where
  stype : SignalType
  recipientId : Option String
  callId : Option String
  deriving DecidableEq, Repr

/-- A row of the `notifications` table as the call code writes it. -/
structure NotifRecord where
  recipientId : String
  senderId : String
  kind : String
  timestamp : Int
  deriving DecidableEq, Repr

/-- A row of the `messages` table as the call code writes it. -/
structure MsgRecord where
  senderId : String
  recipientId : String
  kind : String
  timestamp : Int
  deriving DecidableEq, Repr

/-- Cached availability of the `calls` table (`hasCallsTable` state plus
`callsRestrictedRef`). -/
structure CallsCache where
  hasCallsTable : Option Bool := none
  restricted : Bool := false
  deriving DecidableEq, Repr

/-- Outcome of a store write attempt against the `calls` table. -/
inductive StoreOutcome where
  | ok
  | rlsDenied
  | unauthorized
  | failed
  deriving DecidableEq, Repr

/-- Outcome of the startup probe `supabase.from('calls').select('id').limit(1)`. -/
inductive ProbeOutcome where
  | ok
  | rlsDenied
  | failed
  deriving DecidableEq, Repr

/-- The call-related client state of `AppProvider` in `src/store.tsx`.
`sent` records every message handed to `sendSignal`, `stoppedTracks` the
tracks on which `stop()` was called, and `closedConns` the peer
connections that were `close()`d (the live map is `peerConns`). `notifs`
and `msgs` stand for the shared store tables the call code reads and
writes. -/
structure AppState where
  myId : String
  myName : String := ""
  incomingCall : Option IncomingCall := none
  isInCall : Bool := false
  activeCallData : Option CallData := none
  activeCallId : Option String := none
  peerConns : List (String × PeerConn) := []
  closedConns : List (String × PeerConn) := []
  pendingRemoteCandidates : List (String × List Candidate) := []
  remoteStreams : List (String × Nat) := []
  localTracks : Option (List Track) := none
  placeholderTrack : Option Track := none
  localVideoTrack : Option Track := none
  stoppedTracks : List Track := []
  isScreenSharing : Bool := false
  isMicOn : Bool := false
  isCameraOn : Bool := false
  sent : List OutSignal := []
  notifs : List NotifRecord := []
  msgs : List MsgRecord := []
  callsCache : CallsCache := {}
  storeAttempts : Nat := 0
  deriving DecidableEq, Repr

/-! ### Association-list maps

`peerConnectionsRef.current` and `pendingRemoteCandidatesRef.current` are
JS `Map`s; we model them as association lists with JS `Map` semantics
(unique keys, `get` / `set` / `delete`). -/

/-- Lookup, with `Map.get` semantics. -/
def findEntry (k : String) : List (String × α) → Option α
  | [] => none
  | e :: rest => if e.1 = k then some e.2 else findEntry k rest

/-- Update, with `Map.set` semantics: replace the first binding of `k`, or append one. -/
def setEntry (k : String) (v : α) : List (String × α) → List (String × α)
  | [] => [(k, v)]
  | e :: rest => if e.1 = k then (k, v) :: rest else e :: setEntry k v rest

/-- Removal, with `Map.delete` semantics (removes every binding of `k`; on unique-key maps this is
the same as deleting the one binding). -/
def eraseEntry (k : String) : List (String × α) → List (String × α)
  | [] => []
  | e :: rest => if e.1 = k then eraseEntry k rest else e :: eraseEntry k rest

theorem findEntry_setEntry_self (k : String) (v : α) (m : List (String × α)) :
    findEntry k (setEntry k v m) = some v := by
  induction m with
  | nil => simp [setEntry, findEntry]
  | cons e rest ih =>
    by_cases h : e.1 = k
    · simp [setEntry, h, findEntry]
    · simp [setEntry, h, findEntry, ih]

theorem findEntry_setEntry_ne (k k' : String) (v : α) (m : List (String × α))
    (h : k ≠ k') : findEntry k (setEntry k' v m) = findEntry k m := by
  induction m with
  | nil => simp [setEntry, findEntry, Ne.symm h]
  | cons e rest ih =>
    by_cases he : e.1 = k'
    · have hek : e.1 ≠ k := by rw [he]; exact Ne.symm h
      simp [setEntry, findEntry, he, hek, Ne.symm h]
    · by_cases hek : e.1 = k
      · simp [setEntry, findEntry, he, hek, h, Ne.symm h]
      · simp [setEntry, findEntry, he, hek, ih]

theorem findEntry_eraseEntry_self (k : String) (m : List (String × α)) :
    findEntry k (eraseEntry k m) = none := by
  induction m with
  | nil => simp [eraseEntry, findEntry]
  | cons e rest ih =>
    by_cases h : e.1 = k
    · simp [eraseEntry, h, ih]
    · simp [eraseEntry, h, findEntry, ih]

theorem findEntry_eraseEntry_ne (k k' : String) (m : List (String × α))
    (h : k ≠ k') : findEntry k (eraseEntry k' m) = findEntry k m := by
  induction m with
  | nil => simp [eraseEntry, findEntry]
  | cons e rest ih =>
    by_cases he : e.1 = k'
    · have hek : e.1 ≠ k := by rw [he]; exact Ne.symm h
      simp [eraseEntry, findEntry, he, hek, ih, Ne.symm h]
    · by_cases hek : e.1 = k
      · simp [eraseEntry, findEntry, he, hek, h, Ne.symm h]
      · simp [eraseEntry, findEntry, he, hek, ih]

/-! ### Missed-call records (10-second dedup window)

Both missed-call code paths in `src/store.tsx` — the HANGUP case of the
signaling handler (lines 556-624, callee side) and `endCall`
(lines 1424-1524, caller side, once per not-joined invitee) — run the
same query/insert pair against the shared store: a notification keyed by
`(recipient_id = callee, sender_id = caller, type = MISSED_CALL)` and a
chat message keyed by `(sender_id = caller, recipient_id = callee,
type = 'missed_call')`, each inserted only when no record with those keys
and `timestamp > Date.now() - 10000` exists. -/

/-- The notification dedup predicate (`recipient_id` / `sender_id` /
`type` equality filters plus `gt('timestamp', recentWindow)`). -/
def notifMatches (calleeId callerId : String) (recentWindow : Int)
    (r : NotifRecord) : Bool :=
  decide (r.recipientId = calleeId ∧ r.senderId = callerId ∧
    r.kind = "MISSED_CALL" ∧ recentWindow < r.timestamp)

/-- The chat-message dedup predicate. -/
def msgMatches (calleeId callerId : String) (recentWindow : Int)
    (r : MsgRecord) : Bool :=
  decide (r.senderId = callerId ∧ r.recipientId = calleeId ∧
    r.kind = "missed_call" ∧ recentWindow < r.timestamp)

/-- Deduplicated missed-call notification insert. -/
def missedCallNotifInsert (store : List NotifRecord) (calleeId callerId : String)
    (now : Int) : List NotifRecord :=
  if store.any (notifMatches calleeId callerId (now - 10000)) then store
  else store ++ [{ recipientId := calleeId, senderId := callerId,
                   kind := "MISSED_CALL", timestamp := now }]

/-- Deduplicated missed-call chat-message insert. -/
def missedCallMsgInsert (store : List MsgRecord) (calleeId callerId : String)
    (now : Int) : List MsgRecord :=
  if store.any (msgMatches calleeId callerId (now - 10000)) then store
  else store ++ [{ senderId := callerId, recipientId := calleeId,
                   kind := "missed_call", timestamp := now }]

/-- Number of missed-call notifications for one `(callee, caller)` pair. -/
def countMissedNotifs (store : List NotifRecord) (calleeId callerId : String) : Nat :=
  (store.filter (fun r => decide (r.recipientId = calleeId ∧ r.senderId = callerId ∧
    r.kind = "MISSED_CALL"))).length

/-- Number of missed-call chat messages for one `(callee, caller)` pair. -/
def countMissedMsgs (store : List MsgRecord) (calleeId callerId : String) : Nat :=
  (store.filter (fun r => decide (r.senderId = callerId ∧ r.recipientId = calleeId ∧
    r.kind = "missed_call"))).length

/-! ### The signaling broadcast handler and call actions -/

/-- An OFFER handed to `sendSignal` for one recipient. -/
def offerSig (recipientId : String) (callId : Option String) : OutSignal :=
  { stype := .OFFER, recipientId := some recipientId, callId := callId }

/-- An ANSWER handed to `sendSignal` for one recipient. -/
def answerSig (recipientId : String) (callId : Option String) : OutSignal :=
  { stype := .ANSWER, recipientId := some recipientId, callId := callId }

/-- A HANGUP handed to `sendSignal` for one recipient. -/
def hangupSig (recipientId : String) : OutSignal :=
  { stype := .HANGUP, recipientId := some recipientId, callId := none }

/-- The CANDIDATE case of the signaling broadcast handler
(src/store.tsx lines 536-554): if a peer connection exists for the
sender, call `addIceCandidate` on it immediately; otherwise append the
candidate to that sender's buffer in `pendingRemoteCandidatesRef`. -/
def handleCandidate (senderId : String) (cand : Option Candidate)
    (st : AppState) : AppState :=
  match findEntry senderId st.peerConns, cand with
  | some pc, some c =>
      let pc' := { pc with addedCandidates := pc.addedCandidates ++ [c] }
      { st with peerConns := setEntry senderId pc' st.peerConns }
  | none, some c =>
      let buf := (findEntry senderId st.pendingRemoteCandidates).getD []
      { st with pendingRemoteCandidates :=
          setEntry senderId (buf ++ [c]) st.pendingRemoteCandidates }
  | _, none => st

/-- The ANSWER case (lines 505-534): on the sender's existing connection
set the remote description, flush that sender's buffered candidates in
arrival order, clear the buffer, and add the sender to `joinedIds`
unless already present. A sender with no connection is discarded. -/
def handleAnswer (senderId : String) (st : AppState) : AppState :=
  match findEntry senderId st.peerConns with
  | none => st
  | some pc =>
      let pending := (findEntry senderId st.pendingRemoteCandidates).getD []
      let pc' := { pc with hasRemoteDescription := true,
                           addedCandidates := pc.addedCandidates ++ pending }
      let pendings :=
        if pending.length > 0 then eraseEntry senderId st.pendingRemoteCandidates
        else st.pendingRemoteCandidates
      { st with
        peerConns := setEntry senderId pc' st.peerConns,
        pendingRemoteCandidates := pendings,
        activeCallData :=
          match st.activeCallData with
          | none => none
          | some d =>
              if senderId ∈ d.joinedIds then some d
              else some { d with joinedIds := d.joinedIds ++ [senderId] } }

/-- The OFFER case (lines 453-503). The busy guard and the renegotiation
guard both require the OFFER payload to carry a callId AND `activeCallId`
to be set (`isInCall && incomingCallId && activeCallId && ...`); any
OFFER failing those conjunctions falls through to the incoming-invite
staging at the bottom of the case. -/
def handleOffer (senderId : String) (p : OfferPayload) (now : Int)
    (st : AppState) : AppState :=
  if st.isInCall ∧ p.callId.isSome ∧ st.activeCallId.isSome ∧
      p.callId ≠ st.activeCallId then
    st
  else if st.isInCall ∧ p.callId.isSome ∧ st.activeCallId.isSome ∧
      p.callId = st.activeCallId then
    let pc : PeerConn :=
      match findEntry senderId st.peerConns with
      | some pc => pc
      | none => { senders := st.localTracks.getD [] }
    match p.sdp with
    | none => { st with peerConns := setEntry senderId pc st.peerConns }
    | some _ =>
        let pending := (findEntry senderId st.pendingRemoteCandidates).getD []
        let pc' := { pc with hasRemoteDescription := true,
                             addedCandidates := pc.addedCandidates ++ pending,
                             hasLocalDescription := true }
        let pendings :=
          if pending.length > 0 then eraseEntry senderId st.pendingRemoteCandidates
          else st.pendingRemoteCandidates
        { st with
          peerConns := setEntry senderId pc' st.peerConns,
          pendingRemoteCandidates := pendings,
          sent := st.sent ++ [answerSig senderId p.callId] }
  else
    { st with incomingCall := some { callerId := senderId, isVideo := p.isVideo,
                                     timestamp := now, offer := p.sdp,
                                     callId := p.callId } }

/-- Embeds `cleanupCall` (lines 1538-1552): stop every local track (including the
placeholder), close every peer connection and clear the map, and reset
all call state and media flags. -/
def cleanupCall (st : AppState) : AppState :=
  { st with
    stoppedTracks := st.stoppedTracks ++ st.localTracks.getD [] ++
      (match st.placeholderTrack with | some t => [t] | none => []),
    placeholderTrack := none,
    closedConns := st.closedConns ++
      st.peerConns.map (fun e => (e.1, { e.2 with closed := true })),
    peerConns := [],
    localTracks := none,
    remoteStreams := [],
    isInCall := false,
    activeCallData := none,
    activeCallId := none,
    isScreenSharing := false,
    isMicOn := false,
    isCameraOn := false,
    localVideoTrack := none }

/-- Embeds `handleRemoteHangup` (lines 1526-1536): close and remove the sender's
connection and remote stream, drop the sender from `joinedIds`, and tear
the whole call down when `joinedIds` becomes empty. -/
def handleRemoteHangup (senderId : String) (st : AppState) : AppState :=
  let st1 :=
    match findEntry senderId st.peerConns with
    | some pc =>
        { st with closedConns := st.closedConns ++ [(senderId, { pc with closed := true })],
                  peerConns := eraseEntry senderId st.peerConns }
    | none => st
  let st2 := { st1 with remoteStreams := eraseEntry senderId st1.remoteStreams }
  match st2.activeCallData with
  | none => st2
  | some d =>
      let newJoined := d.joinedIds.filter (fun id => decide (id ≠ senderId))
      if newJoined.isEmpty then cleanupCall st2
      else { st2 with activeCallData := some { d with joinedIds := newJoined } }

/-- The HANGUP case of the signaling handler (lines 556-624): when a
staged invite from this sender exists, run the deduplicated missed-call
notification and chat-message inserts for the inbound direction
(recipient = the local user, sender = the remote caller) and clear the
invite; always forward to `handleRemoteHangup`. -/
def handleHangup (senderId : String) (now : Int) (st : AppState) : AppState :=
  let st1 :=
    match st.incomingCall with
    | some ic =>
        if ic.callerId = senderId then
          let stN := { st with notifs := missedCallNotifInsert st.notifs st.myId senderId now }
          let stM := { stN with msgs := missedCallMsgInsert stN.msgs st.myId senderId now }
          { stM with incomingCall := none }
        else st
    | none => st
  handleRemoteHangup senderId st1

/-- Embeds `acceptIncomingCall` (lines 1377-1415): no-op without a staged
invite; otherwise create the caller's peer connection, apply the staged
offer as remote description, flush that caller's buffered candidates in
order, answer, and activate the call session with
`invitedIds = joinedIds = [callerId]`, clearing the invite. -/
def acceptIncomingCall (st : AppState) : AppState :=
  match st.incomingCall with
  | none => st
  | some ic =>
      let pc0 : PeerConn := {}
      let st0 := { st with peerConns := setEntry ic.callerId pc0 st.peerConns }
      let st1 :=
        match ic.offer with
        | none => st0
        | some _ =>
            let pending := (findEntry ic.callerId st0.pendingRemoteCandidates).getD []
            let pc1 : PeerConn :=
              { pc0 with hasRemoteDescription := true,
                         addedCandidates := pc0.addedCandidates ++ pending,
                         hasLocalDescription := true }
            let pendings :=
              if pending.length > 0 then eraseEntry ic.callerId st0.pendingRemoteCandidates
              else st0.pendingRemoteCandidates
            { st0 with
              peerConns := setEntry ic.callerId pc1 st0.peerConns,
              pendingRemoteCandidates := pendings,
              sent := st0.sent ++ [answerSig ic.callerId ic.callId] }
      let d : CallData :=
        { invitedIds := [ic.callerId], joinedIds := [ic.callerId], isVideo := ic.isVideo }
      { st1 with
        isInCall := true,
        activeCallId := ic.callId,
        activeCallData := some d,
        incomingCall := none }

/-- Embeds `rejectIncomingCall` (lines 1417-1422): send HANGUP to the caller and
clear the invite; no peer connection is created. -/
def rejectIncomingCall (st : AppState) : AppState :=
  match st.incomingCall with
  | none => st
  | some ic =>
      { st with
        sent := st.sent ++ [hangupSig ic.callerId],
        incomingCall := none }

/-! ### The `calls`-table availability probe and its guards -/

/-- The startup probe effect (lines 281-311), run exactly once (its
`useEffect` has an empty dependency list): error code 42501 marks the
table restricted but present, any other error marks it absent. -/
def initCallsCache : ProbeOutcome → CallsCache
  | .ok => { hasCallsTable := some true, restricted := false }
  | .rlsDenied => { hasCallsTable := some true, restricted := true }
  | .failed => { hasCallsTable := some false, restricted := false }

/-- The guarded insert of the initial call record in `startGroupCall`
(lines 1288-1329): skipped without a store attempt unless the probe found
the table and it is not restricted; a 42501 on the insert itself caches
`restricted` for all later writes. Returns the updated cache and whether
a write was attempted. -/
def tryInsertCallRecord (cache : CallsCache) (outcome : StoreOutcome) :
    CallsCache × Bool :=
  if cache.hasCallsTable = some true then
    if cache.restricted then (cache, false)
    else
      match outcome with
      | .rlsDenied => ({ cache with restricted := true }, true)
      | _ => (cache, true)
  else (cache, false)

/-- The guarded update of the call record in `endCall` (lines 1491-1518);
same guard plus the `activeCallId` presence check. -/
def tryUpdateCallRecord (cache : CallsCache) (hasActiveCallId : Bool)
    (outcome : StoreOutcome) : CallsCache × Bool :=
  if cache.hasCallsTable = some true ∧ hasActiveCallId then
    if cache.restricted then (cache, false)
    else
      match outcome with
      | .rlsDenied => ({ cache with restricted := true }, true)
      | _ => (cache, true)
  else (cache, false)

/-- The per-recipient body of `startGroupCall`'s fan-out loop (lines
1332-1349): create a peer connection, attach any existing local tracks,
create an offer, set the local description and send the OFFER. -/
def sgcStep (stream : Option (List Track)) (callId : String) (s : AppState)
    (rid : String) : AppState :=
  let pc : PeerConn := { senders := stream.getD [], hasLocalDescription := true }
  { s with peerConns := setEntry rid pc s.peerConns,
           sent := s.sent ++ [offerSig rid (some callId)] }

/-- The per-invitee body of `endCall`'s HANGUP fan-out (line 1521). -/
def hangupStep (s : AppState) (pid : String) : AppState :=
  { s with sent := s.sent ++ [hangupSig pid] }

/-- Embeds `startGroupCall` (lines 1273-1350): activate the call session with
the invitees and an empty `joinedIds`, run the best-effort call-record
insert, and for each recipient create a peer connection, attach any
existing local tracks, and create and send an OFFER. `callId` stands for
the generated fresh id and `outcome` for the store insert's result. -/
def startGroupCall (recipientIds : List String) (isVideo : Bool) (callId : String)
    (outcome : StoreOutcome) (st : AppState) : AppState :=
  if recipientIds.isEmpty then st
  else
    let stream := st.localTracks
    let d : CallData := { invitedIds := recipientIds, joinedIds := [], isVideo := isVideo }
    let st1 := { st with isInCall := true,
                         activeCallId := some callId,
                         activeCallData := some d }
    let ins := tryInsertCallRecord st1.callsCache outcome
    let st2 := { st1 with callsCache := ins.1,
                          storeAttempts := st1.storeAttempts + (if ins.2 then 1 else 0) }
    recipientIds.foldl (sgcStep stream callId) st2

/-- Embeds `initiateCallConnection` (lines 1358-1375). -/
def initiateCallConnection (recipientId : String) (st : AppState) : AppState :=
  let pc : PeerConn := { senders := st.localTracks.getD [], hasLocalDescription := true }
  { st with peerConns := setEntry recipientId pc st.peerConns,
            sent := st.sent ++ [offerSig recipientId st.activeCallId] }

/-- Embeds `addToCall` (lines 1352-1356): only while a call session is active. -/
def addToCall (recipientId : String) (st : AppState) : AppState :=
  if st.isInCall ∧ st.activeCallData.isSome then
    let st1 := initiateCallConnection recipientId st
    let updated := st1.activeCallData.map
      (fun d => { d with invitedIds := d.invitedIds ++ [recipientId] })
    { st1 with activeCallData := updated }
  else st

/-- The missed-call accounting for one not-joined invitee inside
`endCall` (lines 1431-1489): a deduplicated notification insert
(recipient = the invitee, sender = the local user) then a deduplicated
chat-message insert. -/
def recordMissedForInvitee (now : Int) (st : AppState) (recipientId : String) :
    AppState :=
  let st1 := { st with notifs := missedCallNotifInsert st.notifs recipientId st.myId now }
  { st1 with msgs := missedCallMsgInsert st1.msgs recipientId st.myId now }

/-- Embeds `endCall` (lines 1424-1524): missed-call accounting for every invited
id not in `joinedIds`, the guarded call-record update, HANGUP to every
invited id, then `cleanupCall`. -/
def endCall (now : Int) (outcome : StoreOutcome) (st : AppState) : AppState :=
  let st1 :=
    match st.activeCallData with
    | none => st
    | some d =>
        let invited := d.invitedIds
        let joined := d.joinedIds
        let notJoined := invited.filter (fun id => decide (id ∉ joined))
        let sA := notJoined.foldl (recordMissedForInvitee now) st
        let upd := tryUpdateCallRecord sA.callsCache sA.activeCallId.isSome outcome
        let sB := { sA with callsCache := upd.1,
                            storeAttempts := sA.storeAttempts + (if upd.2 then 1 else 0) }
        invited.foldl hangupStep sB
  cleanupCall st1

/-- The `onconnectionstatechange` handler installed in
`createPeerConnection` (lines 1033-1042): on `connected` / `completed`,
add the peer to `joinedIds` unless already present. -/
def onPeerConnected (recipientId : String) (st : AppState) : AppState :=
  { st with activeCallData :=
      match st.activeCallData with
      | none => none
      | some d =>
          if recipientId ∈ d.joinedIds then some d
          else some { d with joinedIds := d.joinedIds ++ [recipientId] } }

/-! ### The per-peer replace-vs-add track logic -/

/-- Replacement via `sender.replaceTrack(newTrack)` on the first sender whose track has
the given kind. -/
def replaceFirstTrack (kind : String) (nt : Track) : List Track → List Track
  | [] => []
  | t :: ts => if t.kind = kind then nt :: ts else t :: replaceFirstTrack kind nt ts

/-- The per-peer body of the track loops in `toggleMic` (lines 1116-1134)
and `toggleCamera` (lines 1229-1242): if the connection has a sender
carrying a track of the new track's kind, replace that sender's track in
place and send nothing; otherwise `addTrack`, create an offer, set the
local description and send an OFFER to this peer. Returns the updated
connection and the signals sent for it. -/
def attachOrReplaceTrack (newTrack : Track) (recipientId : String)
    (activeCallId : Option String) (pc : PeerConn) : PeerConn × List OutSignal :=
  match pc.senders.find? (fun t => decide (t.kind = newTrack.kind)) with
  | some _ =>
      ({ pc with senders := replaceFirstTrack newTrack.kind newTrack pc.senders }, [])
  | none =>
      ({ pc with senders := pc.senders ++ [newTrack], hasLocalDescription := true },
       [offerSig recipientId activeCallId])

/-! ### The outbound signal queue -/

/-- The outbound transport state: `isSignalingSubscribedRef`,
`pendingSignalsRef` (the FIFO queue) and the log of messages actually
sent over the channel, in order. -/
structure OutboundQueue where
  subscribed : Bool := false
  queue : List OutSignal := []
  delivered : List OutSignal := []
  deriving DecidableEq, Repr

/-- Embeds `sendSignal` (lines 661-682): deliver immediately when the channel is
confirmed subscribed, otherwise append to the FIFO queue. -/
def sendSignal (m : OutSignal) (s : OutboundQueue) : OutboundQueue :=
  if s.subscribed then { s with delivered := s.delivered ++ [m] }
  else { s with queue := s.queue ++ [m] }

/-- The SUBSCRIBED branch of the subscribe status callback (lines
627-648): mark subscribed, splice the whole queue out and send it in
enqueue order. -/
def onSubscribed (s : OutboundQueue) : OutboundQueue :=
  { s with subscribed := true, delivered := s.delivered ++ s.queue, queue := [] }

/-- The CLOSED / REVOKED branch (lines 649-652). -/
def onChannelClosed (s : OutboundQueue) : OutboundQueue :=
  { s with subscribed := false }

/-! ### Event steps over the call state -/

/-- One externally triggered event of the call subsystem. -/
inductive CallEvent where
  | offer (senderId : String) (p : OfferPayload) (now : Int)
  | answer (senderId : String)
  | candidate (senderId : String) (c : Option Candidate)
  | hangup (senderId : String) (now : Int)
  | accept
  | reject
  | start (recipientIds : List String) (isVideo : Bool) (callId : String)
      (outcome : StoreOutcome)
  | addTo (recipientId : String)
  | finish (now : Int) (outcome : StoreOutcome)
  | peerConnected (recipientId : String)
  | cleanup
  deriving Repr

/-- Dispatch of one event to the corresponding embedded handler. -/
def step : CallEvent → AppState → AppState
  | .offer s p now => handleOffer s p now
  | .answer s => handleAnswer s
  | .candidate s c => handleCandidate s c
  | .hangup s now => handleHangup s now
  | .accept => acceptIncomingCall
  | .reject => rejectIncomingCall
  | .start ids v cid o => startGroupCall ids v cid o
  | .addTo r => addToCall r
  | .finish now o => endCall now o
  | .peerConnected r => onPeerConnected r
  | .cleanup => cleanupCall

/-! ### Generic preservation lemmas -/

/-- A fold whose step preserves a projection preserves it overall. -/
theorem foldl_preserves {α : Type} (g : AppState → α) (f : AppState → String → AppState)
    (h : ∀ s x, g (f s x) = g s) :
    ∀ (l : List String) (s : AppState), g (l.foldl f s) = g s := by
  intro l
  induction l with
  | nil => intro s; rfl
  | cons x xs ih => intro s; rw [List.foldl_cons, ih, h]

/-- The HANGUP fan-out loop of `endCall` appends one HANGUP per invited id. -/
theorem foldl_hangup_sent : ∀ (ids : List String) (s : AppState),
    ids.foldl hangupStep s = { s with sent := s.sent ++ ids.map hangupSig } := by
  intro ids
  induction ids with
  | nil => intro s; simp
  | cons x xs ih =>
    intro s
    rw [List.foldl_cons, ih]
    simp [hangupStep]

/-- Appending a fresh element keeps a list duplicate-free. -/
theorem nodup_append_one {a : String} {l : List String} (ha : a ∉ l)
    (hl : l.Nodup) : (l ++ [a]).Nodup := by
  induction l with
  | nil => simp
  | cons x xs ih =>
    rcases List.nodup_cons.mp hl with ⟨hx, hxs⟩
    have hax : a ∉ xs := fun h => ha (List.mem_cons_of_mem x h)
    refine List.nodup_cons.mpr ⟨?_, ih hax hxs⟩
    intro hmem
    rcases List.mem_append.mp hmem with h | h
    · exact hx h
    · rcases List.mem_singleton.mp h with rfl
      exact ha (List.mem_cons_self x xs)

/-! ### C10: cleanupCall resets the whole call state in one step -/

/-- C10 (confirmed). After `cleanupCall`: every local media track
(including the placeholder) is stopped, every peer connection is closed
and the connection map emptied, the local stream and the remote-stream
map are cleared, `isInCall` is false, the active call data and call id
are null, and the screen-sharing, microphone and camera flags are all
false. -/
theorem cleanupCall_full_reset (st : AppState) :
    (cleanupCall st).peerConns = [] ∧
    (cleanupCall st).closedConns =
      st.closedConns ++ st.peerConns.map (fun e => (e.1, { e.2 with closed := true })) ∧
    (∀ e ∈ st.peerConns.map (fun e => (e.1, { e.2 with closed := true })),
      e.2.closed = true) ∧
    (cleanupCall st).stoppedTracks =
      st.stoppedTracks ++ st.localTracks.getD [] ++
        (match st.placeholderTrack with | some t => [t] | none => []) ∧
    (cleanupCall st).localTracks = none ∧
    (cleanupCall st).remoteStreams = [] ∧
    (cleanupCall st).isInCall = false ∧
    (cleanupCall st).activeCallData = none ∧
    (cleanupCall st).activeCallId = none ∧
    (cleanupCall st).isScreenSharing = false ∧
    (cleanupCall st).isMicOn = false ∧
    (cleanupCall st).isCameraOn = false ∧
    (cleanupCall st).placeholderTrack = none ∧
    (cleanupCall st).localVideoTrack = none := by
  refine ⟨rfl, rfl, ?_, rfl, rfl, rfl, rfl, rfl, rfl, rfl, rfl, rfl, rfl, rfl⟩
  intro e he
  rcases List.mem_map.mp he with ⟨x, _, hx⟩
  rw [← hx]

/-- A concrete in-call state for C10's witness. -/
def c10State : AppState :=
  { myId := "A", isInCall := true,
    activeCallData := some { invitedIds := ["B"], joinedIds := ["B"],
                             isVideo := true },
    activeCallId := some "c10",
    peerConns := [("B", { hasRemoteDescription := true })],
    localTracks := some [{ kind := "audio", tid := 1 }],
    isMicOn := true }

/-- C10 witness: the reset evaluated on a concrete in-call state. -/
theorem cleanupCall_full_reset_witness :
    (cleanupCall c10State).peerConns = [] ∧
    (cleanupCall c10State).stoppedTracks = [{ kind := "audio", tid := 1 }] ∧
    (cleanupCall c10State).isInCall = false ∧
    (cleanupCall c10State).isMicOn = false := by
  have h := cleanupCall_full_reset c10State
  exact ⟨h.1, h.2.2.2.1.trans (by decide), h.2.2.2.2.2.2.1,
    h.2.2.2.2.2.2.2.2.2.2.1⟩

/-! ### C7: the outbound signal queue is a FIFO flushed exactly once -/

/-- C7 (confirmed). While the transport is not confirmed subscribed every
outbound message is appended to the single FIFO queue in order and
nothing is delivered; the SUBSCRIBED transition flushes the queue in
enqueue order and empties it, and a second SUBSCRIBED event delivers
nothing further (each queued message is sent at most once); `sendSignal`
never drops a message (the count of any message across delivered+queue
rises by exactly one), and the flush neither drops nor duplicates
(delivered+queue is preserved verbatim). -/
theorem outbound_queue_fifo_exactly_once :
    (∀ (ms : List OutSignal) (s : OutboundQueue), s.subscribed = false →
      (ms.foldl (fun q m => sendSignal m q) s).queue = s.queue ++ ms ∧
      (ms.foldl (fun q m => sendSignal m q) s).delivered = s.delivered) ∧
    (∀ s : OutboundQueue,
      (onSubscribed s).delivered = s.delivered ++ s.queue ∧
      (onSubscribed s).queue = [] ∧
      onSubscribed (onSubscribed s) = onSubscribed s) ∧
    (∀ (m : OutSignal) (s : OutboundQueue),
      ((sendSignal m s).delivered ++ (sendSignal m s).queue).count m =
        ((s.delivered ++ s.queue).count m) + 1) ∧
    (∀ s : OutboundQueue,
      (onSubscribed s).delivered ++ (onSubscribed s).queue = s.delivered ++ s.queue) := by
  refine ⟨?_, ?_, ?_, ?_⟩
  · intro ms
    induction ms with
    | nil => intro s _; exact ⟨by simp, rfl⟩
    | cons m ms ih =>
      intro s hs
      rw [List.foldl_cons]
      have hstep : sendSignal m s = { s with queue := s.queue ++ [m] } := by
        simp [sendSignal, hs]
      rcases ih { s with queue := s.queue ++ [m] } hs with ⟨h1, h2⟩
      rw [hstep]
      exact ⟨by rw [h1]; simp, h2⟩
  · intro s
    refine ⟨rfl, rfl, ?_⟩
    simp [onSubscribed]
  · intro m s
    by_cases hs : s.subscribed = true
    · simp [sendSignal, hs, List.count_append]
      omega
    · simp [sendSignal, hs, List.count_append]
      omega
  · intro s
    simp [onSubscribed]

/-- C7 witness: the FIFO/flush behaviour at a concrete unsubscribed state. -/
theorem outbound_queue_fifo_exactly_once_witness :
    (([offerSig "B" (some "c1"), hangupSig "B"].foldl (fun q m => sendSignal m q)
        ({ } : OutboundQueue)).queue = [offerSig "B" (some "c1"), hangupSig "B"] ∧
      (([offerSig "B" (some "c1"), hangupSig "B"].foldl (fun q m => sendSignal m q)
        ({ } : OutboundQueue))).delivered = []) := by
  have h := outbound_queue_fifo_exactly_once.1
    [offerSig "B" (some "c1"), hangupSig "B"] ({ } : OutboundQueue) rfl
  simpa using h

/-! ### C6: replace-in-place versus add-then-renegotiate -/

/-- Replacing by a track of the same kind leaves the kinds of the senders
unchanged. -/
theorem replaceFirstTrack_kinds (nt : Track) :
    ∀ l : List Track, (replaceFirstTrack nt.kind nt l).map Track.kind = l.map Track.kind := by
  intro l
  induction l with
  | nil => rfl
  | cons t ts ih =>
    by_cases h : t.kind = nt.kind
    · simp [replaceFirstTrack, h]
    · simp [replaceFirstTrack, h, ih]

/-- C6 (confirmed). If the peer connection already has a sender carrying
a track of the new track's kind, the loop body only replaces that
sender's track in place: negotiation state (descriptions, candidates,
closed flag) and the multiset of sender kinds are untouched and no
signal — in particular no OFFER — is sent. If no such sender exists, a
new sender is added and exactly one fresh OFFER is created (local
description set) and transmitted to that peer. -/
theorem replace_vs_add_track (pc : PeerConn) (nt : Track) (rid : String)
    (acid : Option String) :
    ((∃ t ∈ pc.senders, t.kind = nt.kind) →
      (attachOrReplaceTrack nt rid acid pc).1 =
        { pc with senders := replaceFirstTrack nt.kind nt pc.senders } ∧
      (attachOrReplaceTrack nt rid acid pc).2 = [] ∧
      (attachOrReplaceTrack nt rid acid pc).1.hasRemoteDescription = pc.hasRemoteDescription ∧
      (attachOrReplaceTrack nt rid acid pc).1.hasLocalDescription = pc.hasLocalDescription ∧
      (attachOrReplaceTrack nt rid acid pc).1.addedCandidates = pc.addedCandidates ∧
      (attachOrReplaceTrack nt rid acid pc).1.closed = pc.closed ∧
      (attachOrReplaceTrack nt rid acid pc).1.senders.map Track.kind =
        pc.senders.map Track.kind) ∧
    ((∀ t ∈ pc.senders, t.kind ≠ nt.kind) →
      (attachOrReplaceTrack nt rid acid pc).1.senders = pc.senders ++ [nt] ∧
      (attachOrReplaceTrack nt rid acid pc).2 = [offerSig rid acid] ∧
      (attachOrReplaceTrack nt rid acid pc).1.hasLocalDescription = true) := by
  rcases hf : pc.senders.find? (fun t => decide (t.kind = nt.kind)) with _ | t
  · constructor
    · intro hex
      rcases hex with ⟨t, ht, hk⟩
      have := List.find?_eq_none.mp hf t ht
      simp [hk] at this
    · intro _
      unfold attachOrReplaceTrack
      rw [hf]
      exact ⟨rfl, rfl, rfl⟩
  · constructor
    · intro _
      unfold attachOrReplaceTrack
      rw [hf]
      exact ⟨rfl, rfl, rfl, rfl, rfl, rfl, replaceFirstTrack_kinds nt pc.senders⟩
    · intro hall
      have hmem := List.mem_of_find?_eq_some hf
      have hpred := List.find?_some hf
      simp at hpred
      exact absurd hpred (hall t hmem)

/-- C6 witness: a connection with an audio sender gets an in-place
replacement and no OFFER; one with no audio sender gets a new sender and
one OFFER. -/
theorem replace_vs_add_track_witness :
    ((attachOrReplaceTrack { kind := "audio", tid := 9 } "B" (some "c1")
        { senders := [{ kind := "audio", tid := 1 }] }).2 = [] ∧
      (attachOrReplaceTrack { kind := "audio", tid := 9 } "B" (some "c1")
        { senders := [{ kind := "audio", tid := 1 }] }).1.senders.map Track.kind =
        ["audio"]) ∧
    ((attachOrReplaceTrack { kind := "audio", tid := 9 } "B" (some "c1")
        { senders := [{ kind := "video", tid := 2 }] }).1.senders =
        [{ kind := "video", tid := 2 }, { kind := "audio", tid := 9 }] ∧
      (attachOrReplaceTrack { kind := "audio", tid := 9 } "B" (some "c1")
        { senders := [{ kind := "video", tid := 2 }] }).2 =
        [offerSig "B" (some "c1")]) := by
  have h1 := (replace_vs_add_track { senders := [{ kind := "audio", tid := 1 }] }
    { kind := "audio", tid := 9 } "B" (some "c1")).1
    ⟨{ kind := "audio", tid := 1 }, by decide, rfl⟩
  have h2 := (replace_vs_add_track { senders := [{ kind := "video", tid := 2 }] }
    { kind := "audio", tid := 9 } "B" (some "c1")).2 (by decide)
  refine ⟨⟨h1.2.1, ?_⟩, h2.1, h2.2.1⟩
  rw [h1.2.2.2.2.2.2]
  rfl

/-! ### C1: candidate buffering and flush -/

/-- The buffered candidates of one sender
(`pendingRemoteCandidatesRef.current.get(senderId) || []`). -/
def pendingFor (senderId : String) (st : AppState) : List Candidate :=
  (findEntry senderId st.pendingRemoteCandidates).getD []

/-- A sequence of CANDIDATE messages from one sender, processed in
arrival order. -/
def feedCandidates (senderId : String) (cs : List Candidate) (st : AppState) :
    AppState :=
  cs.foldl (fun s c => handleCandidate senderId (some c) s) st

/-- While no peer connection exists for the sender, CANDIDATE messages
only accumulate in that sender's buffer, in arrival order; connections
and the staged invite are untouched. -/
theorem feedCandidates_no_pc (B : String) (cs : List Candidate) :
    ∀ st : AppState, findEntry B st.peerConns = none →
      (feedCandidates B cs st).peerConns = st.peerConns ∧
      pendingFor B (feedCandidates B cs st) = pendingFor B st ++ cs ∧
      (feedCandidates B cs st).incomingCall = st.incomingCall := by
  induction cs with
  | nil => intro st _; exact ⟨rfl, by simp [feedCandidates], rfl⟩
  | cons c cs ih =>
    intro st h
    have hstep : handleCandidate B (some c) st =
        { st with pendingRemoteCandidates :=
            setEntry B (pendingFor B st ++ [c]) st.pendingRemoteCandidates } := by
      simp [handleCandidate, h, pendingFor]
    have hfold : feedCandidates B (c :: cs) st =
        feedCandidates B cs (handleCandidate B (some c) st) := rfl
    rw [hfold, hstep]
    have hrec := ih ({ st with pendingRemoteCandidates := setEntry B (pendingFor B st ++ [c]) st.pendingRemoteCandidates }) h
    rcases hrec with ⟨h1, h2, h3⟩
    refine ⟨h1, ?_, h3⟩
    rw [h2]
    simp [pendingFor, findEntry_setEntry_self]

/-- Accepting with a staged offer: the caller's fresh
connection ends with the remote description set and exactly the buffered
candidates applied in order, and the caller's buffer is cleared. -/
theorem acceptIncomingCall_flush (st : AppState) (ic : IncomingCall) (o : Nat)
    (hic : st.incomingCall = some ic) (ho : ic.offer = some o) :
    findEntry ic.callerId (acceptIncomingCall st).peerConns =
      some { hasRemoteDescription := true, hasLocalDescription := true,
             addedCandidates := pendingFor ic.callerId st,
             senders := [], closed := false } ∧
    pendingFor ic.callerId (acceptIncomingCall st) = [] ∧
    (acceptIncomingCall st).incomingCall = none := by
  obtain ⟨cid, iv, ts, off, ocid⟩ := ic
  have ho' : off = some o := ho
  subst ho'
  unfold acceptIncomingCall
  rw [hic]
  dsimp only
  refine ⟨?_, ?_, rfl⟩
  · simp [pendingFor, findEntry_setEntry_self]
  · by_cases hp : ((findEntry cid st.pendingRemoteCandidates).getD []).length > 0
    · simp only [pendingFor]
      rw [if_pos hp]
      simp [findEntry_eraseEntry_self]
    · have hnil : (findEntry cid st.pendingRemoteCandidates).getD [] = [] :=
        List.eq_nil_of_length_eq_zero (by omega)
      simp only [pendingFor]
      rw [if_neg hp]
      exact hnil

/-- C1 as amended (the code buffers on peer-connection absence, not on
remote-description absence). For every sequence of remote CANDIDATE
messages from one sender that arrives while no peer connection exists for
that sender, every candidate is buffered in arrival order, the
connections are untouched, and the application of that sender's remote
description on accepting the staged invite applies exactly those
candidates to the fresh underlying connection, in original arrival order,
after the description is set, clearing the buffer; and a candidate is
applied to the connection immediately if and only if a peer connection
for the sender already exists (second conjunct), even when that
connection has no remote description yet. -/
theorem candidate_buffer_flush_order (st : AppState) (B : String)
    (cs : List Candidate) (ic : IncomingCall) (o : Nat)
    (hpc : findEntry B st.peerConns = none)
    (hbuf : pendingFor B st = [])
    (hic : st.incomingCall = some ic)
    (hcaller : ic.callerId = B)
    (ho : ic.offer = some o) :
    (pendingFor B (feedCandidates B cs st) = cs ∧
     (feedCandidates B cs st).peerConns = st.peerConns ∧
     findEntry B (acceptIncomingCall (feedCandidates B cs st)).peerConns =
       some { hasRemoteDescription := true, hasLocalDescription := true,
              addedCandidates := cs, senders := [], closed := false } ∧
     pendingFor B (acceptIncomingCall (feedCandidates B cs st)) = []) ∧
    (∀ (st' : AppState) (B' : String) (pc : PeerConn) (c : Candidate),
      findEntry B' st'.peerConns = some pc →
        findEntry B' (handleCandidate B' (some c) st').peerConns =
          some { pc with addedCandidates := pc.addedCandidates ++ [c] } ∧
        (handleCandidate B' (some c) st').pendingRemoteCandidates =
          st'.pendingRemoteCandidates) := by
  rcases feedCandidates_no_pc B cs st hpc with ⟨h1, h2, h3⟩
  have h2' : pendingFor B (feedCandidates B cs st) = cs := by
    rw [h2, hbuf]; simp
  have hic1 : (feedCandidates B cs st).incomingCall = some ic := by rw [h3, hic]
  rcases acceptIncomingCall_flush (feedCandidates B cs st) ic o hic1 ho with
    ⟨hA, hB, _⟩
  rw [hcaller] at hA hB
  refine ⟨⟨h2', h1, ?_, hB⟩, ?_⟩
  · rw [hA, h2']
  · intro st' B' pc c h
    constructor
    · simp [handleCandidate, h, findEntry_setEntry_self]
    · simp [handleCandidate, h]

/-- A state with an existing peer connection for sender `"B"` that has no
remote description yet. -/
def c1State : AppState := { myId := "A", peerConns := [("B", {})] }

/-- C1 counterexample to the claim as stated: with a peer connection
present but no remote description set, an arriving CANDIDATE is applied
to the underlying connection immediately (`addIceCandidate` is called)
instead of being buffered — refuting "a candidate is applied immediately
if and only if a remote description already exists, and a candidate is
never added before a remote description exists". -/
theorem candidate_added_without_remote_description :
    (findEntry "B" c1State.peerConns).map PeerConn.hasRemoteDescription =
      some false ∧
    (findEntry "B" (handleCandidate "B" (some 7) c1State).peerConns).map
      PeerConn.addedCandidates = some [7] ∧
    pendingFor "B" (handleCandidate "B" (some 7) c1State) = [] := by
  decide

/-- A callee state with a staged invite from `"B"` and no connection. -/
def c1InviteState : AppState :=
  { myId := "A",
    incomingCall := some { callerId := "B", isVideo := false, timestamp := 0,
                           offer := some 5, callId := some "c1" } }

/-- C1 witness: three candidates buffered before the description, applied
in order exactly once on accept. -/
theorem candidate_buffer_flush_order_witness :
    pendingFor "B" (feedCandidates "B" [1, 2, 3] c1InviteState) = [1, 2, 3] ∧
    findEntry "B"
        (acceptIncomingCall (feedCandidates "B" [1, 2, 3] c1InviteState)).peerConns =
      some { hasRemoteDescription := true, hasLocalDescription := true,
             addedCandidates := [1, 2, 3], senders := [], closed := false } ∧
    pendingFor "B" (acceptIncomingCall (feedCandidates "B" [1, 2, 3] c1InviteState)) =
      [] := by
  have h := candidate_buffer_flush_order c1InviteState "B" [1, 2, 3]
    { callerId := "B", isVideo := false, timestamp := 0, offer := some 5,
      callId := some "c1" } 5
    (by decide) (by decide) (by decide) (by decide) (by decide)
  exact ⟨h.1.1, h.1.2.2.1, h.1.2.2.2⟩

/-! ### C2: busy / renegotiation routing of inbound OFFERs -/

/-- C2 as amended: while in a call, provided the inbound OFFER carries a
callId and the active call id is set, an OFFER whose callId differs from
the active one is ignored with no side effects (the state is returned
unchanged), and an OFFER whose callId equals the active one is handled on
the existing or a newly created peer connection as renegotiation and is
never staged as an incoming invite; when no call session is active the
OFFER is staged as a new IncomingCallInvite. (The provisos are necessary:
an OFFER without a callId — or one arriving while `activeCallId` is null —
falls through both guards and is staged even while busy, see the
counterexample.) -/
theorem offer_busy_renegotiation (st : AppState) (B : String) (p : OfferPayload)
    (now : Int) (c a : String) :
    (st.isInCall = true → p.callId = some c → st.activeCallId = some a → c ≠ a →
      handleOffer B p now st = st) ∧
    (st.isInCall = true → p.callId = some c → st.activeCallId = some a → c = a →
      (handleOffer B p now st).incomingCall = st.incomingCall ∧
      (findEntry B (handleOffer B p now st).peerConns).isSome = true) ∧
    (st.isInCall = false →
      (handleOffer B p now st).incomingCall =
        some { callerId := B, isVideo := p.isVideo, timestamp := now,
               offer := p.sdp, callId := p.callId }) := by
  refine ⟨?_, ?_, ?_⟩
  · intro h1 h2 h3 h4
    have hcond : st.isInCall = true ∧ p.callId.isSome = true ∧
        st.activeCallId.isSome = true ∧ p.callId ≠ st.activeCallId := by
      refine ⟨h1, by rw [h2]; rfl, by rw [h3]; rfl, ?_⟩
      rw [h2, h3]
      intro hEq
      exact h4 (Option.some.inj hEq)
    unfold handleOffer
    rw [if_pos hcond]
  · intro h1 h2 h3 h4
    subst h4
    have hcond1 : ¬(st.isInCall = true ∧ p.callId.isSome = true ∧
        st.activeCallId.isSome = true ∧ p.callId ≠ st.activeCallId) := by
      intro hc
      exact hc.2.2.2 (by rw [h2, h3])
    have hcond2 : st.isInCall = true ∧ p.callId.isSome = true ∧
        st.activeCallId.isSome = true ∧ p.callId = st.activeCallId := by
      exact ⟨h1, by rw [h2]; rfl, by rw [h3]; rfl, by rw [h2, h3]⟩
    unfold handleOffer
    rw [if_neg hcond1, if_pos hcond2]
    rcases hs : p.sdp with _ | o <;>
      rcases hpc : findEntry B st.peerConns with _ | pc0 <;>
      simp [hpc, findEntry_setEntry_self]
  · intro h1
    have hcond1 : ¬(st.isInCall = true ∧ p.callId.isSome = true ∧
        st.activeCallId.isSome = true ∧ p.callId ≠ st.activeCallId) := by
      intro hc; rw [h1] at hc; exact Bool.false_ne_true hc.1
    have hcond2 : ¬(st.isInCall = true ∧ p.callId.isSome = true ∧
        st.activeCallId.isSome = true ∧ p.callId = st.activeCallId) := by
      intro hc; rw [h1] at hc; exact Bool.false_ne_true hc.1
    unfold handleOffer
    rw [if_neg hcond1, if_neg hcond2]

/-- A busy state: in call `"c1"` with `"B"`. -/
def c2BusyState : AppState :=
  { myId := "A", isInCall := true, activeCallId := some "c1",
    activeCallData := some { invitedIds := ["B"], joinedIds := ["B"],
                             isVideo := false },
    peerConns := [("B", { hasRemoteDescription := true })] }

/-- C2 counterexample to the claim as stated: while a call session is
active, an inbound OFFER that carries no callId falls through both the
busy guard and the renegotiation guard (each requires
`signalPayload.callId` to be truthy) and is staged as a new
IncomingCallInvite — refuting "only when no CallSession is active is an
OFFER staged as a new IncomingCallInvite". -/
theorem offer_staged_while_busy :
    c2BusyState.isInCall = true ∧
    (handleOffer "D" { sdp := some 9, isVideo := true, callId := none } 5
        c2BusyState).incomingCall =
      some { callerId := "D", isVideo := true, timestamp := 5, offer := some 9,
             callId := none } := by
  decide

/-- C2 witness: a different-callId OFFER while busy is a strict no-op, a
same-callId OFFER is handled as renegotiation without staging an invite,
and an OFFER while idle is staged. -/
theorem offer_busy_renegotiation_witness :
    (handleOffer "D" { sdp := some 9, isVideo := false, callId := some "c2" } 5
        c2BusyState = c2BusyState) ∧
    ((handleOffer "B" { sdp := some 9, isVideo := false, callId := some "c1" } 5
        c2BusyState).incomingCall = c2BusyState.incomingCall ∧
      (findEntry "B" (handleOffer "B"
          { sdp := some 9, isVideo := false, callId := some "c1" } 5
          c2BusyState).peerConns).isSome = true) ∧
    ((handleOffer "B" { sdp := some 9, isVideo := false, callId := some "c1" } 5
        { myId := "A" }).incomingCall =
      some { callerId := "B", isVideo := false, timestamp := 5, offer := some 9,
             callId := some "c1" }) := by
  refine ⟨?_, ?_, ?_⟩
  · exact (offer_busy_renegotiation c2BusyState "D"
      { sdp := some 9, isVideo := false, callId := some "c2" } 5 "c2" "c1").1
      rfl rfl rfl (by decide)
  · exact (offer_busy_renegotiation c2BusyState "B"
      { sdp := some 9, isVideo := false, callId := some "c1" } 5 "c1" "c1").2.1
      rfl rfl rfl rfl
  · exact (offer_busy_renegotiation { myId := "A" } "B"
      { sdp := some 9, isVideo := false, callId := some "c1" } 5 "c1" "c1").2.2
      rfl

/-! ### C4 / C5: missed-call dedup and the HANGUP-on-staged-invite path -/

/-- The missed-call notification record inserted by both call sites. -/
def mkNotifRec (calleeId callerId : String) (t : Int) : NotifRecord :=
  { recipientId := calleeId, senderId := callerId, kind := "MISSED_CALL",
    timestamp := t }

/-- The missed-call chat-message record inserted by both call sites. -/
def mkMsgRec (calleeId callerId : String) (t : Int) : MsgRecord :=
  { senderId := callerId, recipientId := calleeId, kind := "missed_call",
    timestamp := t }

/-- A store with no missed-call notification at all for the pair matches
the dedup query at no window. -/
theorem countMissedNotifs_zero_any (store : List NotifRecord)
    (calleeId callerId : String) (w : Int)
    (h : countMissedNotifs store calleeId callerId = 0) :
    store.any (notifMatches calleeId callerId w) = false := by
  have hfil := List.length_eq_zero.mp h
  have hall := List.filter_eq_nil_iff.mp hfil
  rw [List.any_eq_false]
  intro r hr hmatch
  unfold notifMatches at hmatch
  simp only [decide_eq_true_eq] at hmatch
  have hk := hall r hr
  simp only [decide_eq_true_eq] at hk
  exact hk ⟨hmatch.1, hmatch.2.1, hmatch.2.2.1⟩

/-- Message-store version of `countMissedNotifs_zero_any`. -/
theorem countMissedMsgs_zero_any (store : List MsgRecord)
    (calleeId callerId : String) (w : Int)
    (h : countMissedMsgs store calleeId callerId = 0) :
    store.any (msgMatches calleeId callerId w) = false := by
  have hfil := List.length_eq_zero.mp h
  have hall := List.filter_eq_nil_iff.mp hfil
  rw [List.any_eq_false]
  intro r hr hmatch
  unfold msgMatches at hmatch
  simp only [decide_eq_true_eq] at hmatch
  have hk := hall r hr
  simp only [decide_eq_true_eq] at hk
  exact hk ⟨hmatch.1, hmatch.2.1, hmatch.2.2.1⟩

/-- Appending the canonical record raises the pair's notification count
by one. -/
theorem countMissedNotifs_append (store : List NotifRecord)
    (calleeId callerId : String) (t : Int) :
    countMissedNotifs (store ++ [mkNotifRec calleeId callerId t]) calleeId callerId =
      countMissedNotifs store calleeId callerId + 1 := by
  unfold countMissedNotifs
  rw [List.filter_append, List.length_append]
  simp [mkNotifRec]

/-- Appending the canonical record raises the pair's message count by one. -/
theorem countMissedMsgs_append (store : List MsgRecord)
    (calleeId callerId : String) (t : Int) :
    countMissedMsgs (store ++ [mkMsgRec calleeId callerId t]) calleeId callerId =
      countMissedMsgs store calleeId callerId + 1 := by
  unfold countMissedMsgs
  rw [List.filter_append, List.length_append]
  simp [mkMsgRec]

/-- The handler `handleRemoteHangup` never touches the notification or message stores
or the staged invite. -/
theorem handleRemoteHangup_store (B : String) (st : AppState) :
    (handleRemoteHangup B st).notifs = st.notifs ∧
    (handleRemoteHangup B st).msgs = st.msgs ∧
    (handleRemoteHangup B st).incomingCall = st.incomingCall := by
  unfold handleRemoteHangup
  rcases hpc : findEntry B st.peerConns with _ | pc <;> dsimp only <;>
    rcases hacd : st.activeCallData with _ | d <;> dsimp only
  · exact ⟨rfl, rfl, rfl⟩
  · split_ifs with hj <;> exact ⟨rfl, rfl, rfl⟩
  · exact ⟨rfl, rfl, rfl⟩
  · split_ifs with hj <;> exact ⟨rfl, rfl, rfl⟩

/-- The handler `handleRemoteHangup` never creates a peer connection. -/
theorem handleRemoteHangup_no_pc (B : String) (st : AppState)
    (h : findEntry B st.peerConns = none) :
    findEntry B (handleRemoteHangup B st).peerConns = none := by
  unfold handleRemoteHangup
  rw [h]
  dsimp only
  rcases hacd : st.activeCallData with _ | d <;> dsimp only
  · exact h
  · split_ifs with hj
    · rfl
    · exact h

/-- C4 (confirmed). With no prior missed-call records for the pair, the
deduplicated insert creates exactly one notification and one message
record; repeating it within the 10-second window is a no-op on both
stores; repeating it after the window elapses yields a second pair. Both
invocation directions reduce to these same inserts with the same
`(recipient = callee, sender = caller, MISSED_CALL)` key shape and the
same 10-second window, applied independently to the notification and the
message store: the HANGUP handler (callee side, conjunct six) and
`endCall`'s per-invitee accounting (caller side, conjunct seven). -/
theorem missed_call_dedup_window (store : List NotifRecord)
    (mstore : List MsgRecord) (calleeId callerId : String) (t t' t'' : Int)
    (hn0 : countMissedNotifs store calleeId callerId = 0)
    (hm0 : countMissedMsgs mstore calleeId callerId = 0)
    (h1 : t ≤ t') (h2 : t' < t + 10000) (h3 : t + 10000 ≤ t'') :
    (missedCallNotifInsert store calleeId callerId t =
      store ++ [mkNotifRec calleeId callerId t] ∧
     countMissedNotifs (missedCallNotifInsert store calleeId callerId t)
       calleeId callerId = 1 ∧
     missedCallNotifInsert (missedCallNotifInsert store calleeId callerId t)
       calleeId callerId t' =
       missedCallNotifInsert store calleeId callerId t ∧
     countMissedNotifs
       (missedCallNotifInsert (missedCallNotifInsert store calleeId callerId t)
         calleeId callerId t'') calleeId callerId = 2) ∧
    (missedCallMsgInsert mstore calleeId callerId t =
      mstore ++ [mkMsgRec calleeId callerId t] ∧
     countMissedMsgs (missedCallMsgInsert mstore calleeId callerId t)
       calleeId callerId = 1 ∧
     missedCallMsgInsert (missedCallMsgInsert mstore calleeId callerId t)
       calleeId callerId t' =
       missedCallMsgInsert mstore calleeId callerId t ∧
     countMissedMsgs
       (missedCallMsgInsert (missedCallMsgInsert mstore calleeId callerId t)
         calleeId callerId t'') calleeId callerId = 2) ∧
    (∀ (st : AppState) (B : String) (now : Int) (ic : IncomingCall),
      st.incomingCall = some ic → ic.callerId = B →
        (handleHangup B now st).notifs =
          missedCallNotifInsert st.notifs st.myId B now ∧
        (handleHangup B now st).msgs =
          missedCallMsgInsert st.msgs st.myId B now) ∧
    (∀ (st : AppState) (now : Int) (rid : String),
      (recordMissedForInvitee now st rid).notifs =
        missedCallNotifInsert st.notifs rid st.myId now ∧
      (recordMissedForInvitee now st rid).msgs =
        missedCallMsgInsert st.msgs rid st.myId now) := by
  have hinsN : missedCallNotifInsert store calleeId callerId t =
      store ++ [mkNotifRec calleeId callerId t] := by
    unfold missedCallNotifInsert
    rw [countMissedNotifs_zero_any store calleeId callerId (t - 10000) hn0]
    rfl
  have hinsM : missedCallMsgInsert mstore calleeId callerId t =
      mstore ++ [mkMsgRec calleeId callerId t] := by
    unfold missedCallMsgInsert
    rw [countMissedMsgs_zero_any mstore calleeId callerId (t - 10000) hm0]
    rfl
  have hanyN' : (store ++ [mkNotifRec calleeId callerId t]).any
      (notifMatches calleeId callerId (t' - 10000)) = true := by
    rw [List.any_append]
    apply Bool.or_eq_true_iff.mpr
    right
    simp [notifMatches, mkNotifRec]
    omega
  have hanyM' : (mstore ++ [mkMsgRec calleeId callerId t]).any
      (msgMatches calleeId callerId (t' - 10000)) = true := by
    rw [List.any_append]
    apply Bool.or_eq_true_iff.mpr
    right
    simp [msgMatches, mkMsgRec]
    omega
  have hanyN'' : (store ++ [mkNotifRec calleeId callerId t]).any
      (notifMatches calleeId callerId (t'' - 10000)) = false := by
    rw [List.any_append]
    apply Bool.or_eq_false_iff.mpr
    refine ⟨countMissedNotifs_zero_any store calleeId callerId (t'' - 10000) hn0, ?_⟩
    simp [notifMatches, mkNotifRec]
    omega
  have hanyM'' : (mstore ++ [mkMsgRec calleeId callerId t]).any
      (msgMatches calleeId callerId (t'' - 10000)) = false := by
    rw [List.any_append]
    apply Bool.or_eq_false_iff.mpr
    refine ⟨countMissedMsgs_zero_any mstore calleeId callerId (t'' - 10000) hm0, ?_⟩
    simp [msgMatches, mkMsgRec]
    omega
  refine ⟨⟨hinsN, ?_, ?_, ?_⟩, ⟨hinsM, ?_, ?_, ?_⟩, ?_, ?_⟩
  · rw [hinsN, countMissedNotifs_append, hn0]
  · rw [hinsN]
    unfold missedCallNotifInsert
    rw [hanyN', if_pos rfl]
  · rw [hinsN]
    unfold missedCallNotifInsert
    rw [hanyN'', if_neg (by decide : ¬(false = true))]
    rw [show (store ++ [mkNotifRec calleeId callerId t]) ++
        [{ recipientId := calleeId, senderId := callerId, kind := "MISSED_CALL",
           timestamp := t'' }] =
        (store ++ [mkNotifRec calleeId callerId t]) ++
          [mkNotifRec calleeId callerId t''] from rfl]
    rw [countMissedNotifs_append, countMissedNotifs_append, hn0]
  · rw [hinsM, countMissedMsgs_append, hm0]
  · rw [hinsM]
    unfold missedCallMsgInsert
    rw [hanyM', if_pos rfl]
  · rw [hinsM]
    unfold missedCallMsgInsert
    rw [hanyM'', if_neg (by decide : ¬(false = true))]
    rw [show (mstore ++ [mkMsgRec calleeId callerId t]) ++
        [{ senderId := callerId, recipientId := calleeId, kind := "missed_call",
           timestamp := t'' }] =
        (mstore ++ [mkMsgRec calleeId callerId t]) ++
          [mkMsgRec calleeId callerId t''] from rfl]
    rw [countMissedMsgs_append, countMissedMsgs_append, hm0]
  · intro st B now ic hic hcaller
    have hstep : handleHangup B now st =
        handleRemoteHangup B
          { st with notifs := missedCallNotifInsert st.notifs st.myId B now,
                    msgs := missedCallMsgInsert st.msgs st.myId B now,
                    incomingCall := none } := by
      unfold handleHangup
      rw [hic]
      dsimp only
      rw [if_pos hcaller]
    rw [hstep]
    have hpres := handleRemoteHangup_store B
      { st with notifs := missedCallNotifInsert st.notifs st.myId B now,
                msgs := missedCallMsgInsert st.msgs st.myId B now,
                incomingCall := none }
    exact ⟨hpres.1, hpres.2.1⟩
  · intro st now rid
    exact ⟨rfl, rfl⟩

/-- C4 witness: concrete empty stores, `t = 0`, `t' = 9999`,
`t'' = 10000`. -/
theorem missed_call_dedup_window_witness :
    countMissedNotifs (missedCallNotifInsert [] "A" "B" 0) "A" "B" = 1 ∧
    missedCallNotifInsert (missedCallNotifInsert [] "A" "B" 0) "A" "B" 9999 =
      missedCallNotifInsert [] "A" "B" 0 ∧
    countMissedNotifs
      (missedCallNotifInsert (missedCallNotifInsert [] "A" "B" 0) "A" "B" 10000)
      "A" "B" = 2 ∧
    countMissedMsgs
      (missedCallMsgInsert (missedCallMsgInsert [] "A" "B" 0) "A" "B" 10000)
      "A" "B" = 2 := by
  have h := missed_call_dedup_window [] [] "A" "B" 0 9999 10000
    (by decide) (by decide) (by omega) (by omega) (by omega)
  exact ⟨h.1.2.1, h.1.2.2.1, h.1.2.2.2, h.2.1.2.2.2⟩

/-- C5 (confirmed). A HANGUP from the caller of the staged invite
creates exactly one missed-call notification and one missed-call chat
message for that caller (given no record within the dedup scope), clears
the invite, and creates no peer connection for the caller; a HANGUP from
any other sender leaves the invite in place. -/
theorem hangup_on_staged_invite (st : AppState) (B : String) (now : Int)
    (ic : IncomingCall)
    (hic : st.incomingCall = some ic)
    (hcaller : ic.callerId = B)
    (hpc : findEntry B st.peerConns = none)
    (hn : countMissedNotifs st.notifs st.myId B = 0)
    (hm : countMissedMsgs st.msgs st.myId B = 0) :
    (handleHangup B now st).notifs = st.notifs ++ [mkNotifRec st.myId B now] ∧
    (handleHangup B now st).msgs = st.msgs ++ [mkMsgRec st.myId B now] ∧
    countMissedNotifs (handleHangup B now st).notifs st.myId B = 1 ∧
    countMissedMsgs (handleHangup B now st).msgs st.myId B = 1 ∧
    (handleHangup B now st).incomingCall = none ∧
    findEntry B (handleHangup B now st).peerConns = none ∧
    (∀ C : String, ic.callerId ≠ C →
      (handleHangup C now st).incomingCall = st.incomingCall) := by
  have hinsN : missedCallNotifInsert st.notifs st.myId B now =
      st.notifs ++ [mkNotifRec st.myId B now] := by
    unfold missedCallNotifInsert
    rw [countMissedNotifs_zero_any st.notifs st.myId B (now - 10000) hn]
    rfl
  have hinsM : missedCallMsgInsert st.msgs st.myId B now =
      st.msgs ++ [mkMsgRec st.myId B now] := by
    unfold missedCallMsgInsert
    rw [countMissedMsgs_zero_any st.msgs st.myId B (now - 10000) hm]
    rfl
  have hstep : handleHangup B now st =
      handleRemoteHangup B
        { st with notifs := missedCallNotifInsert st.notifs st.myId B now,
                  msgs := missedCallMsgInsert st.msgs st.myId B now,
                  incomingCall := none } := by
    unfold handleHangup
    rw [hic]
    dsimp only
    rw [if_pos hcaller]
  have hpres := handleRemoteHangup_store B
    { st with notifs := missedCallNotifInsert st.notifs st.myId B now,
              msgs := missedCallMsgInsert st.msgs st.myId B now,
              incomingCall := none }
  have hN : (handleHangup B now st).notifs = st.notifs ++ [mkNotifRec st.myId B now] := by
    rw [hstep, hpres.1]
    exact hinsN
  have hM : (handleHangup B now st).msgs = st.msgs ++ [mkMsgRec st.myId B now] := by
    rw [hstep, hpres.2.1]
    exact hinsM
  refine ⟨hN, hM, ?_, ?_, ?_, ?_, ?_⟩
  · rw [hN, countMissedNotifs_append, hn]
  · rw [hM, countMissedMsgs_append, hm]
  · rw [hstep, hpres.2.2]
  · rw [hstep]
    exact handleRemoteHangup_no_pc B _ hpc
  · intro C hC
    have hstepC : handleHangup C now st = handleRemoteHangup C st := by
      unfold handleHangup
      rw [hic]
      dsimp only
      rw [if_neg hC]
    rw [hstepC]
    exact (handleRemoteHangup_store C st).2.2

/-- A callee state with a staged invite from `"B"` for C5's witness. -/
def c5State : AppState :=
  { myId := "A",
    incomingCall := some { callerId := "B", isVideo := true, timestamp := 0,
                           offer := some 3, callId := some "c7" } }

/-- C5 witness: the concrete staged-invite scenario, including that a
HANGUP from a third party leaves the invite in place. -/
theorem hangup_on_staged_invite_witness :
    (handleHangup "B" 50 c5State).notifs = [mkNotifRec "A" "B" 50] ∧
    (handleHangup "B" 50 c5State).msgs = [mkMsgRec "A" "B" 50] ∧
    (handleHangup "B" 50 c5State).incomingCall = none ∧
    findEntry "B" (handleHangup "B" 50 c5State).peerConns = none ∧
    (handleHangup "C" 50 c5State).incomingCall = c5State.incomingCall := by
  have h := hangup_on_staged_invite c5State "B" 50
    { callerId := "B", isVideo := true, timestamp := 0, offer := some 3,
      callId := some "c7" }
    (by decide) (by decide) (by decide) (by decide) (by decide)
  exact ⟨h.1, h.2.1, h.2.2.2.2.1, h.2.2.2.2.2.1, h.2.2.2.2.2.2 "C" (by decide)⟩

/-! ### C3: endCall missed-call accounting and teardown -/

/-- Folding the per-invitee accounting over duplicate-free recipients
whose pairs have no record in the dedup scope appends exactly one
notification and one message per recipient, in order, and changes
nothing else. -/
theorem foldl_recordMissed_clean (now : Int) :
    ∀ (rids : List String) (st : AppState),
      rids.Nodup →
      (∀ r ∈ st.notifs, ¬(r.senderId = st.myId ∧ r.recipientId ∈ rids ∧
        r.kind = "MISSED_CALL" ∧ now - 10000 < r.timestamp)) →
      (∀ r ∈ st.msgs, ¬(r.senderId = st.myId ∧ r.recipientId ∈ rids ∧
        r.kind = "missed_call" ∧ now - 10000 < r.timestamp)) →
      rids.foldl (recordMissedForInvitee now) st =
        { st with
          notifs := st.notifs ++ rids.map (fun rid => mkNotifRec rid st.myId now),
          msgs := st.msgs ++ rids.map (fun rid => mkMsgRec rid st.myId now) } := by
  intro rids
  induction rids with
  | nil => intro st _ _ _; simp
  | cons rid rest ih =>
    intro st hnodup hN hM
    have hanyN : st.notifs.any (notifMatches rid st.myId (now - 10000)) = false := by
      rw [List.any_eq_false]
      intro r hr hmatch
      unfold notifMatches at hmatch
      simp only [decide_eq_true_eq] at hmatch
      exact hN r hr ⟨hmatch.2.1, by rw [hmatch.1]; exact List.mem_cons_self rid rest,
        hmatch.2.2.1, hmatch.2.2.2⟩
    have hanyM : st.msgs.any (msgMatches rid st.myId (now - 10000)) = false := by
      rw [List.any_eq_false]
      intro r hr hmatch
      unfold msgMatches at hmatch
      simp only [decide_eq_true_eq] at hmatch
      exact hM r hr ⟨hmatch.1, by rw [hmatch.2.1]; exact List.mem_cons_self rid rest,
        hmatch.2.2.1, hmatch.2.2.2⟩
    have hstep : recordMissedForInvitee now st rid =
        { st with notifs := st.notifs ++ [mkNotifRec rid st.myId now],
                  msgs := st.msgs ++ [mkMsgRec rid st.myId now] } := by
      unfold recordMissedForInvitee missedCallNotifInsert missedCallMsgInsert
      dsimp only
      rw [hanyN, hanyM]
      rfl
    rw [List.foldl_cons, hstep]
    rcases List.nodup_cons.mp hnodup with ⟨hmem, hrest⟩
    have hrec := ih ({ st with notifs := st.notifs ++ [mkNotifRec rid st.myId now], msgs := st.msgs ++ [mkMsgRec rid st.myId now] }) hrest ?_ ?_
    · rw [hrec]
      simp
    · intro r hr
      rcases List.mem_append.mp hr with hold | hnew
      · intro hc
        exact hN r hold ⟨hc.1, List.mem_cons_of_mem rid hc.2.1, hc.2.2.1, hc.2.2.2⟩
      · rcases List.mem_singleton.mp hnew with rfl
        intro hc
        exact hmem (by simpa [mkNotifRec] using hc.2.1)
    · intro r hr
      rcases List.mem_append.mp hr with hold | hnew
      · intro hc
        exact hM r hold ⟨hc.1, List.mem_cons_of_mem rid hc.2.1, hc.2.2.1, hc.2.2.2⟩
      · rcases List.mem_singleton.mp hnew with rfl
        intro hc
        exact hmem (by simpa [mkMsgRec] using hc.2.1)

/-- C3 (confirmed). `endCall` on an active call session with
duplicate-free invitees and clean stores triggers missed-call accounting
— one notification and one message, via the deduplicated inserts — for
exactly the invited ids that are not in `joinedIds` (in invitation
order), and for no joined participant; it then sends HANGUP to every
invited id and tears down all peer connections and local media. -/
theorem endCall_missed_accounting (st : AppState) (now : Int) (o : StoreOutcome)
    (d : CallData)
    (hd : st.activeCallData = some d)
    (hnodup : d.invitedIds.Nodup)
    (hn : st.notifs = [])
    (hm : st.msgs = []) :
    (endCall now o st).notifs =
      (d.invitedIds.filter (fun id => decide (id ∉ d.joinedIds))).map
        (fun rid => mkNotifRec rid st.myId now) ∧
    (endCall now o st).msgs =
      (d.invitedIds.filter (fun id => decide (id ∉ d.joinedIds))).map
        (fun rid => mkMsgRec rid st.myId now) ∧
    (endCall now o st).sent = st.sent ++ d.invitedIds.map hangupSig ∧
    (endCall now o st).peerConns = [] ∧
    (endCall now o st).localTracks = none ∧
    (endCall now o st).isInCall = false ∧
    (endCall now o st).activeCallData = none ∧
    (endCall now o st).activeCallId = none := by
  have hNJnodup : (d.invitedIds.filter (fun id => decide (id ∉ d.joinedIds))).Nodup :=
    hnodup.filter _
  have hfoldA := foldl_recordMissed_clean now
    (d.invitedIds.filter (fun id => decide (id ∉ d.joinedIds))) st hNJnodup
    (by rw [hn]; intro r hr; exact absurd hr (List.not_mem_nil r))
    (by rw [hm]; intro r hr; exact absurd hr (List.not_mem_nil r))
  unfold endCall
  rw [hd]
  dsimp only
  rw [hfoldA, foldl_hangup_sent]
  refine ⟨?_, ?_, ?_, rfl, rfl, rfl, rfl, rfl⟩
  · show st.notifs ++ _ = _
    rw [hn]
    rfl
  · show st.msgs ++ _ = _
    rw [hm]
    rfl
  · rfl

/-- The concrete C3 scenario: invited X, Y, Z; only X joined. -/
def c3State : AppState :=
  { myId := "A",
    isInCall := true,
    activeCallData := some { invitedIds := ["X", "Y", "Z"], joinedIds := ["X"],
                             isVideo := false },
    activeCallId := some "c3",
    peerConns := [("X", { hasRemoteDescription := true })] }

/-- C3 witness: missed-call records for exactly Y and Z, HANGUP to X, Y
and Z, connections torn down. -/
theorem endCall_missed_accounting_witness :
    (endCall 0 StoreOutcome.ok c3State).notifs =
      [mkNotifRec "Y" "A" 0, mkNotifRec "Z" "A" 0] ∧
    (endCall 0 StoreOutcome.ok c3State).msgs =
      [mkMsgRec "Y" "A" 0, mkMsgRec "Z" "A" 0] ∧
    (endCall 0 StoreOutcome.ok c3State).sent =
      [hangupSig "X", hangupSig "Y", hangupSig "Z"] ∧
    (endCall 0 StoreOutcome.ok c3State).peerConns = [] ∧
    (endCall 0 StoreOutcome.ok c3State).isInCall = false := by
  have h := endCall_missed_accounting c3State 0 StoreOutcome.ok
    { invitedIds := ["X", "Y", "Z"], joinedIds := ["X"], isVideo := false }
    rfl (by decide) rfl rfl
  exact ⟨h.1.trans (by decide), h.2.1.trans (by decide), h.2.2.1.trans (by decide),
    h.2.2.2.1, h.2.2.2.2.2.1⟩

/-! ### C8: the calls-table probe is cached and persistence is non-fatal -/

/-- Store writes never change the cached availability verdict. -/
theorem tryInsert_hasTable (c : CallsCache) (o : StoreOutcome) :
    (tryInsertCallRecord c o).1.hasCallsTable = c.hasCallsTable := by
  unfold tryInsertCallRecord
  split_ifs <;> cases o <;> rfl

/-- Store writes never change the cached availability verdict. -/
theorem tryUpdate_hasTable (c : CallsCache) (b : Bool) (o : StoreOutcome) :
    (tryUpdateCallRecord c b o).1.hasCallsTable = c.hasCallsTable := by
  unfold tryUpdateCallRecord
  split_ifs <;> cases o <;> rfl

/-- An absent table means the insert is skipped with no store attempt. -/
theorem tryInsert_skip_unavailable (c : CallsCache) (o : StoreOutcome)
    (h : c.hasCallsTable ≠ some true) : tryInsertCallRecord c o = (c, false) := by
  unfold tryInsertCallRecord
  rw [if_neg h]

/-- A restricted table means the insert is skipped with no store attempt. -/
theorem tryInsert_skip_restricted (c : CallsCache) (o : StoreOutcome)
    (h : c.restricted = true) : tryInsertCallRecord c o = (c, false) := by
  unfold tryInsertCallRecord
  split_ifs with h1
  · rfl
  · rfl

/-- An absent or restricted table means the update is skipped with no
store attempt. -/
theorem tryUpdate_skip (c : CallsCache) (b : Bool) (o : StoreOutcome)
    (h : c.hasCallsTable ≠ some true ∨ c.restricted = true) :
    tryUpdateCallRecord c b o = (c, false) := by
  unfold tryUpdateCallRecord
  split_ifs with h1 h2
  · rfl
  · rcases h with h | h
    · exact absurd h1.1 h
    · exact absurd h h2
  · rfl

/-- Whether a write is attempted depends only on the cache, never on the
write's outcome. -/
theorem tryInsert_snd_indep (c : CallsCache) (o1 o2 : StoreOutcome) :
    (tryInsertCallRecord c o1).2 = (tryInsertCallRecord c o2).2 := by
  unfold tryInsertCallRecord
  split_ifs <;> cases o1 <;> cases o2 <;> rfl

/-- Whether an update is attempted depends only on the cache and the
call id, never on the outcome. -/
theorem tryUpdate_snd_indep (c : CallsCache) (b : Bool) (o1 o2 : StoreOutcome) :
    (tryUpdateCallRecord c b o1).2 = (tryUpdateCallRecord c b o2).2 := by
  unfold tryUpdateCallRecord
  split_ifs <;> cases o1 <;> cases o2 <;> rfl

theorem handleCandidate_cache (B : String) (c : Option Candidate) (st : AppState) :
    (handleCandidate B c st).callsCache = st.callsCache ∧
    (handleCandidate B c st).storeAttempts = st.storeAttempts := by
  unfold handleCandidate
  rcases hpc : findEntry B st.peerConns with _ | pc <;> rcases c with _ | c0 <;>
    dsimp only <;> exact ⟨rfl, rfl⟩

theorem handleAnswer_cache (B : String) (st : AppState) :
    (handleAnswer B st).callsCache = st.callsCache ∧
    (handleAnswer B st).storeAttempts = st.storeAttempts := by
  unfold handleAnswer
  rcases hpc : findEntry B st.peerConns with _ | pc <;> dsimp only <;>
    exact ⟨rfl, rfl⟩

theorem handleOffer_cache (B : String) (p : OfferPayload) (now : Int)
    (st : AppState) :
    (handleOffer B p now st).callsCache = st.callsCache ∧
    (handleOffer B p now st).storeAttempts = st.storeAttempts := by
  unfold handleOffer
  split_ifs with h1 h2
  · exact ⟨rfl, rfl⟩
  · rcases hpc : findEntry B st.peerConns with _ | pc <;> dsimp only <;>
      rcases hs : p.sdp with _ | o <;> dsimp only <;> exact ⟨rfl, rfl⟩
  · exact ⟨rfl, rfl⟩

theorem cleanupCall_cache (st : AppState) :
    (cleanupCall st).callsCache = st.callsCache ∧
    (cleanupCall st).storeAttempts = st.storeAttempts := ⟨rfl, rfl⟩

theorem handleRemoteHangup_cache (B : String) (st : AppState) :
    (handleRemoteHangup B st).callsCache = st.callsCache ∧
    (handleRemoteHangup B st).storeAttempts = st.storeAttempts := by
  unfold handleRemoteHangup
  rcases hpc : findEntry B st.peerConns with _ | pc <;> dsimp only <;>
    rcases hacd : st.activeCallData with _ | d <;> dsimp only
  · exact ⟨rfl, rfl⟩
  · split_ifs with hj <;> exact ⟨rfl, rfl⟩
  · exact ⟨rfl, rfl⟩
  · split_ifs with hj <;> exact ⟨rfl, rfl⟩

theorem handleHangup_cache (B : String) (now : Int) (st : AppState) :
    (handleHangup B now st).callsCache = st.callsCache ∧
    (handleHangup B now st).storeAttempts = st.storeAttempts := by
  unfold handleHangup
  rcases hic : st.incomingCall with _ | ic <;> dsimp only
  · exact handleRemoteHangup_cache B st
  · split_ifs with hc
    · exact handleRemoteHangup_cache B _
    · exact handleRemoteHangup_cache B st

theorem acceptIncomingCall_cache (st : AppState) :
    (acceptIncomingCall st).callsCache = st.callsCache ∧
    (acceptIncomingCall st).storeAttempts = st.storeAttempts := by
  unfold acceptIncomingCall
  rcases hic : st.incomingCall with _ | ic <;> dsimp only
  · exact ⟨rfl, rfl⟩
  · rcases ho : ic.offer with _ | o <;> dsimp only <;> exact ⟨rfl, rfl⟩

theorem rejectIncomingCall_cache (st : AppState) :
    (rejectIncomingCall st).callsCache = st.callsCache ∧
    (rejectIncomingCall st).storeAttempts = st.storeAttempts := by
  unfold rejectIncomingCall
  rcases hic : st.incomingCall with _ | ic <;> dsimp only <;> exact ⟨rfl, rfl⟩

theorem addToCall_cache (r : String) (st : AppState) :
    (addToCall r st).callsCache = st.callsCache ∧
    (addToCall r st).storeAttempts = st.storeAttempts := by
  unfold addToCall initiateCallConnection
  split_ifs with h <;> exact ⟨rfl, rfl⟩

theorem onPeerConnected_cache (r : String) (st : AppState) :
    (onPeerConnected r st).callsCache = st.callsCache ∧
    (onPeerConnected r st).storeAttempts = st.storeAttempts := ⟨rfl, rfl⟩

theorem startGroupCall_hasTable (ids : List String) (v : Bool) (cid : String)
    (o : StoreOutcome) (st : AppState) :
    (startGroupCall ids v cid o st).callsCache.hasCallsTable =
      st.callsCache.hasCallsTable := by
  unfold startGroupCall
  split_ifs with h
  · rfl
  · dsimp only
    rw [foldl_preserves (fun s => s.callsCache) (sgcStep st.localTracks cid)
      (fun s x => rfl) ids _]
    exact tryInsert_hasTable st.callsCache o

theorem startGroupCall_skip (ids : List String) (v : Bool) (cid : String)
    (o : StoreOutcome) (st : AppState)
    (h : st.callsCache.hasCallsTable ≠ some true) :
    (startGroupCall ids v cid o st).callsCache = st.callsCache ∧
    (startGroupCall ids v cid o st).storeAttempts = st.storeAttempts := by
  unfold startGroupCall
  split_ifs with hids
  · exact ⟨rfl, rfl⟩
  · dsimp only
    have hins : tryInsertCallRecord st.callsCache o = (st.callsCache, false) :=
      tryInsert_skip_unavailable st.callsCache o h
    constructor
    · rw [foldl_preserves (fun s => s.callsCache) (sgcStep st.localTracks cid)
        (fun s x => rfl) ids _]
      show (tryInsertCallRecord st.callsCache o).1 = st.callsCache
      rw [hins]
    · rw [foldl_preserves (fun s => s.storeAttempts) (sgcStep st.localTracks cid)
        (fun s x => rfl) ids _]
      show st.storeAttempts +
        (if (tryInsertCallRecord st.callsCache o).2 then 1 else 0) = st.storeAttempts
      rw [hins]
      rfl

theorem endCall_hasTable (now : Int) (o : StoreOutcome) (st : AppState) :
    (endCall now o st).callsCache.hasCallsTable =
      st.callsCache.hasCallsTable := by
  unfold endCall
  rcases hacd : st.activeCallData with _ | d <;> dsimp only
  · rfl
  · rw [foldl_hangup_sent]
    show (tryUpdateCallRecord
        (List.foldl (recordMissedForInvitee now) st
          (List.filter (fun id => decide (id ∉ d.joinedIds)) d.invitedIds)).callsCache
        _ o).1.hasCallsTable = st.callsCache.hasCallsTable
    rw [tryUpdate_hasTable,
      foldl_preserves (fun s => s.callsCache) (recordMissedForInvitee now)
        (fun s x => rfl) _ st]

theorem endCall_skip (now : Int) (o : StoreOutcome) (st : AppState)
    (h : st.callsCache.hasCallsTable ≠ some true) :
    (endCall now o st).callsCache = st.callsCache ∧
    (endCall now o st).storeAttempts = st.storeAttempts := by
  unfold endCall
  rcases hacd : st.activeCallData with _ | d <;> dsimp only
  · exact ⟨rfl, rfl⟩
  · rw [foldl_hangup_sent]
    have hccA : (List.foldl (recordMissedForInvitee now) st
        (List.filter (fun id => decide (id ∉ d.joinedIds)) d.invitedIds)).callsCache =
        st.callsCache :=
      foldl_preserves (fun s => s.callsCache) (recordMissedForInvitee now)
        (fun s x => rfl) _ st
    have hsaA : (List.foldl (recordMissedForInvitee now) st
        (List.filter (fun id => decide (id ∉ d.joinedIds)) d.invitedIds)).storeAttempts =
        st.storeAttempts :=
      foldl_preserves (fun s => s.storeAttempts) (recordMissedForInvitee now)
        (fun s x => rfl) _ st
    constructor
    · show (tryUpdateCallRecord _ _ o).1 = st.callsCache
      rw [hccA, tryUpdate_skip _ _ o (Or.inl h)]
    · show (List.foldl (recordMissedForInvitee now) st _).storeAttempts +
        (if (tryUpdateCallRecord _ _ o).2 then 1 else 0) = st.storeAttempts
      rw [hccA, tryUpdate_skip _ _ o (Or.inl h), hsaA]
      rfl

/-- Per-event: the cached availability verdict never changes after the
startup probe. -/
theorem step_hasTable (e : CallEvent) (st : AppState) :
    (step e st).callsCache.hasCallsTable = st.callsCache.hasCallsTable := by
  cases e with
  | offer s p now =>
    exact congrArg (fun c => c.hasCallsTable) (handleOffer_cache s p now st).1
  | answer s => exact congrArg (fun c => c.hasCallsTable) (handleAnswer_cache s st).1
  | candidate s c =>
    exact congrArg (fun c => c.hasCallsTable) (handleCandidate_cache s c st).1
  | hangup s now =>
    exact congrArg (fun c => c.hasCallsTable) (handleHangup_cache s now st).1
  | accept => exact congrArg (fun c => c.hasCallsTable) (acceptIncomingCall_cache st).1
  | reject => exact congrArg (fun c => c.hasCallsTable) (rejectIncomingCall_cache st).1
  | start ids v cid o => exact startGroupCall_hasTable ids v cid o st
  | addTo r => exact congrArg (fun c => c.hasCallsTable) (addToCall_cache r st).1
  | finish now o => exact endCall_hasTable now o st
  | peerConnected r =>
    exact congrArg (fun c => c.hasCallsTable) (onPeerConnected_cache r st).1
  | cleanup => exact congrArg (fun c => c.hasCallsTable) (cleanupCall_cache st).1

/-- Per-event: with the table cached as unavailable, no event performs a
store attempt or changes the cache. -/
theorem step_skip (e : CallEvent) (st : AppState)
    (h : st.callsCache.hasCallsTable ≠ some true) :
    (step e st).callsCache = st.callsCache ∧
    (step e st).storeAttempts = st.storeAttempts := by
  cases e with
  | offer s p now => exact handleOffer_cache s p now st
  | answer s => exact handleAnswer_cache s st
  | candidate s c => exact handleCandidate_cache s c st
  | hangup s now => exact handleHangup_cache s now st
  | accept => exact acceptIncomingCall_cache st
  | reject => exact rejectIncomingCall_cache st
  | start ids v cid o => exact startGroupCall_skip ids v cid o st h
  | addTo r => exact addToCall_cache r st
  | finish now o => exact endCall_skip now o st h
  | peerConnected r => exact onPeerConnected_cache r st
  | cleanup => exact cleanupCall_cache st

/-- The per-recipient OFFER fan-out of `startGroupCall` never reads the
calls cache: folding from two seeds that differ only in the cache yields
results that differ only in the cache. -/
theorem foldl_sgc_cache_indep (stream : Option (List Track)) (callId : String) :
    ∀ (ids : List String) (s1 s2 : AppState),
      s1 = { s2 with callsCache := s1.callsCache } →
      ids.foldl (sgcStep stream callId) s1 =
        { ids.foldl (sgcStep stream callId) s2 with callsCache := s1.callsCache } := by
  intro ids
  induction ids with
  | nil => intro s1 s2 h; exact h
  | cons rid rest ih =>
    intro s1 s2 h
    rw [List.foldl_cons, List.foldl_cons]
    have h' : sgcStep stream callId s1 rid =
        { sgcStep stream callId s2 rid with
          callsCache := (sgcStep stream callId s1 rid).callsCache } := by
      rw [h]
      rfl
    exact ih (sgcStep stream callId s1 rid) (sgcStep stream callId s2 rid) h'

/-- The tail of `endCall` (HANGUP fan-out then `cleanupCall`) never reads
the calls cache: from two states that differ only in the cache it
produces results that differ only in the cache. -/
theorem endCall_tail_cache_indep : ∀ (ids : List String) (s1 s2 : AppState),
    s1 = { s2 with callsCache := s1.callsCache } →
    cleanupCall (ids.foldl hangupStep s1) =
      { cleanupCall (ids.foldl hangupStep s2) with
        callsCache := (cleanupCall (ids.foldl hangupStep s1)).callsCache } := by
  intro ids
  induction ids with
  | nil =>
    intro s1 s2 h
    exact (congrArg cleanupCall h).trans rfl
  | cons pid rest ih =>
    intro s1 s2 h
    rw [List.foldl_cons, List.foldl_cons]
    refine ih (hangupStep s1 pid) (hangupStep s2 pid) ?_
    rw [h]
    rfl

/-- C8 (confirmed). The `calls`-table availability verdict comes from the
single startup probe and is cached: when the probe reported the table
absent the guarded insert and update are skipped with no store attempt
(conjuncts one and three), likewise once `restricted` is cached
(conjuncts two and three); no event of the call subsystem ever changes
the cached verdict (conjunct four), and with the table cached unavailable
no sequence of events performs any store attempt (conjunct five); and no
write outcome — including permission-denied — alters anything outside the
cache: `startGroupCall` and `endCall` produce identical live call,
negotiation, signaling and store state for every outcome (conjuncts six
and seven). -/
theorem calls_probe_cached_nonfatal :
    (∀ (c : CallsCache) (o : StoreOutcome), c.hasCallsTable ≠ some true →
        tryInsertCallRecord c o = (c, false)) ∧
    (∀ (c : CallsCache) (o : StoreOutcome), c.restricted = true →
        tryInsertCallRecord c o = (c, false)) ∧
    (∀ (c : CallsCache) (b : Bool) (o : StoreOutcome),
        c.hasCallsTable ≠ some true ∨ c.restricted = true →
        tryUpdateCallRecord c b o = (c, false)) ∧
    (∀ (es : List CallEvent) (st : AppState),
        (es.foldl (fun s e => step e s) st).callsCache.hasCallsTable =
          st.callsCache.hasCallsTable) ∧
    (∀ (es : List CallEvent) (st : AppState),
        st.callsCache.hasCallsTable ≠ some true →
        (es.foldl (fun s e => step e s) st).storeAttempts = st.storeAttempts) ∧
    (∀ (ids : List String) (v : Bool) (cid : String) (o1 o2 : StoreOutcome)
        (st : AppState),
        startGroupCall ids v cid o1 st =
          { startGroupCall ids v cid o2 st with
            callsCache := (startGroupCall ids v cid o1 st).callsCache }) ∧
    (∀ (now : Int) (o1 o2 : StoreOutcome) (st : AppState),
        endCall now o1 st =
          { endCall now o2 st with callsCache := (endCall now o1 st).callsCache }) := by
  refine ⟨tryInsert_skip_unavailable, tryInsert_skip_restricted, tryUpdate_skip,
    ?_, ?_, ?_, ?_⟩
  · intro es
    induction es with
    | nil => intro st; rfl
    | cons e rest ih =>
      intro st
      rw [List.foldl_cons]
      exact (ih (step e st)).trans (step_hasTable e st)
  · intro es
    induction es with
    | nil => intro st _; rfl
    | cons e rest ih =>
      intro st h
      rw [List.foldl_cons]
      have hskip := step_skip e st h
      have h' : (step e st).callsCache.hasCallsTable ≠ some true := by
        rw [hskip.1]; exact h
      exact (ih (step e st) h').trans hskip.2
  · intro ids v cid o1 o2 st
    unfold startGroupCall
    split_ifs with hids
    · rfl
    · dsimp only
      rw [tryInsert_snd_indep st.callsCache o2 o1,
          foldl_preserves (fun s => s.callsCache) (sgcStep st.localTracks cid)
            (fun s x => rfl) ids _]
      refine foldl_sgc_cache_indep st.localTracks cid ids _ _ ?_
      rfl
  · intro now o1 o2 st
    unfold endCall
    rcases hacd : st.activeCallData with _ | d
    · rfl
    · dsimp only
      rw [tryUpdate_snd_indep _ _ o2 o1]
      refine endCall_tail_cache_indep d.invitedIds _ _ ?_
      rfl

/-- C8 witness: a probe verdict of "absent" skips the insert, a
restricted cache skips the update, a start-then-end event sequence leaves
the verdict cached and performs zero store attempts, and a failed insert
outcome yields the same state as a successful one outside the cache. -/
theorem calls_probe_cached_nonfatal_witness :
    tryInsertCallRecord { hasCallsTable := some false, restricted := false }
        StoreOutcome.ok =
      ({ hasCallsTable := some false, restricted := false }, false) ∧
    tryUpdateCallRecord { hasCallsTable := some true, restricted := true } true
        StoreOutcome.failed =
      ({ hasCallsTable := some true, restricted := true }, false) ∧
    ([CallEvent.start ["B"] false "c1" StoreOutcome.failed,
        CallEvent.finish 0 StoreOutcome.failed].foldl (fun s e => step e s)
        { myId := "A",
          callsCache := { hasCallsTable := some false } }).callsCache.hasCallsTable =
      some false ∧
    ([CallEvent.start ["B"] false "c1" StoreOutcome.failed,
        CallEvent.finish 0 StoreOutcome.failed].foldl (fun s e => step e s)
        { myId := "A",
          callsCache := { hasCallsTable := some false } }).storeAttempts = 0 ∧
    startGroupCall ["B"] false "c1" StoreOutcome.failed { myId := "A" } =
      { startGroupCall ["B"] false "c1" StoreOutcome.ok { myId := "A" } with
        callsCache :=
          (startGroupCall ["B"] false "c1" StoreOutcome.failed
            { myId := "A" }).callsCache } := by
  refine ⟨calls_probe_cached_nonfatal.1 _ _ (by decide),
    calls_probe_cached_nonfatal.2.2.1 _ _ _ (Or.inr rfl),
    (calls_probe_cached_nonfatal.2.2.2.1 _ _).trans rfl,
    (calls_probe_cached_nonfatal.2.2.2.2.1 _ _ (by decide)).trans rfl,
    calls_probe_cached_nonfatal.2.2.2.2.2.1 _ _ _ _ _ _⟩

/-! ### C9: joinedIds never contains duplicates -/

/-- The joinedIds list of the active call session (if any) is
duplicate-free. -/
def JoinedNodup (st : AppState) : Prop :=
  ∀ d, st.activeCallData = some d → d.joinedIds.Nodup

/-- The handler `handleRemoteHangup` preserves duplicate-freeness of `joinedIds`. -/
theorem handleRemoteHangup_joined (B : String) (st : AppState)
    (h : JoinedNodup st) : JoinedNodup (handleRemoteHangup B st) := by
  intro d hd
  unfold handleRemoteHangup at hd
  rcases hpc : findEntry B st.peerConns with _ | pc <;> rw [hpc] at hd <;>
    dsimp only at hd <;>
    rcases hacd : st.activeCallData with _ | d0 <;> rw [hacd] at hd <;>
    dsimp only at hd
  · exact Option.noConfusion hd
  · by_cases hj : (d0.joinedIds.filter (fun id => decide (id ≠ B))).isEmpty
    · rw [if_pos hj] at hd
      exact Option.noConfusion hd
    · rw [if_neg hj] at hd
      injection hd with h2
      subst h2
      exact (h d0 hacd).filter _
  · exact Option.noConfusion hd
  · by_cases hj : (d0.joinedIds.filter (fun id => decide (id ≠ B))).isEmpty
    · rw [if_pos hj] at hd
      exact Option.noConfusion hd
    · rw [if_neg hj] at hd
      injection hd with h2
      subst h2
      exact (h d0 hacd).filter _

/-- Every event of the call subsystem preserves duplicate-freeness of
`joinedIds`: each appending path checks membership first. -/
theorem step_joined_nodup (e : CallEvent) (st : AppState) (h : JoinedNodup st) :
    JoinedNodup (step e st) := by
  cases e with
  | candidate s c =>
    show JoinedNodup (handleCandidate s c st)
    intro d hd
    have hacd : (handleCandidate s c st).activeCallData = st.activeCallData := by
      unfold handleCandidate
      rcases hpc : findEntry s st.peerConns with _ | pc <;> rcases c with _ | c0 <;>
        dsimp only
    rw [hacd] at hd
    exact h d hd
  | offer s p now =>
    show JoinedNodup (handleOffer s p now st)
    intro d hd
    have hacd : (handleOffer s p now st).activeCallData = st.activeCallData := by
      unfold handleOffer
      split_ifs with h1 h2
      · rfl
      · rcases hpc : findEntry s st.peerConns with _ | pc <;> dsimp only <;>
          rcases hs : p.sdp with _ | o <;> dsimp only
      · rfl
    rw [hacd] at hd
    exact h d hd
  | answer s =>
    show JoinedNodup (handleAnswer s st)
    intro d hd
    unfold handleAnswer at hd
    rcases hpc : findEntry s st.peerConns with _ | pc <;> rw [hpc] at hd <;>
      dsimp only at hd
    · exact h d hd
    · rcases hacd : st.activeCallData with _ | d0 <;> rw [hacd] at hd <;>
        dsimp only at hd
      · exact Option.noConfusion hd
      · by_cases hmem : s ∈ d0.joinedIds
        · rw [if_pos hmem] at hd
          injection hd with h2
          subst h2
          exact h d0 hacd
        · rw [if_neg hmem] at hd
          injection hd with h2
          subst h2
          exact nodup_append_one hmem (h d0 hacd)
  | hangup s now =>
    show JoinedNodup (handleHangup s now st)
    unfold handleHangup
    rcases hic : st.incomingCall with _ | ic <;> dsimp only
    · exact handleRemoteHangup_joined s st h
    · split_ifs with hc
      · exact handleRemoteHangup_joined s _ (fun d hd => h d hd)
      · exact handleRemoteHangup_joined s st h
  | accept =>
    show JoinedNodup (acceptIncomingCall st)
    intro d hd
    unfold acceptIncomingCall at hd
    rcases hic : st.incomingCall with _ | ic <;> rw [hic] at hd <;> dsimp only at hd
    · exact h d hd
    · injection hd with h2
      subst h2
      exact List.nodup_singleton ic.callerId
  | reject =>
    show JoinedNodup (rejectIncomingCall st)
    intro d hd
    have hacd : (rejectIncomingCall st).activeCallData = st.activeCallData := by
      unfold rejectIncomingCall
      rcases hic : st.incomingCall with _ | ic <;> dsimp only
    rw [hacd] at hd
    exact h d hd
  | start ids v cid o =>
    show JoinedNodup (startGroupCall ids v cid o st)
    intro d hd
    unfold startGroupCall at hd
    split_ifs at hd with hids
    · exact h d hd
    · dsimp only at hd
      rw [foldl_preserves (fun s => s.activeCallData) (sgcStep st.localTracks cid)
        (fun s x => rfl) ids _] at hd
      injection hd with h2
      subst h2
      exact List.nodup_nil
  | addTo r =>
    show JoinedNodup (addToCall r st)
    intro d hd
    unfold addToCall initiateCallConnection at hd
    split_ifs at hd with hcond
    · dsimp only at hd
      rcases hacd : st.activeCallData with _ | d0 <;> rw [hacd] at hd
      · exact Option.noConfusion hd
      · injection hd with h2
        subst h2
        exact h d0 hacd
    · exact h d hd
  | finish now o =>
    show JoinedNodup (endCall now o st)
    intro d hd
    exact Option.noConfusion hd
  | peerConnected r =>
    show JoinedNodup (onPeerConnected r st)
    intro d hd
    unfold onPeerConnected at hd
    rcases hacd : st.activeCallData with _ | d0 <;> rw [hacd] at hd <;>
      dsimp only at hd
    · exact Option.noConfusion hd
    · by_cases hmem : r ∈ d0.joinedIds
      · rw [if_pos hmem] at hd
        injection hd with h2
        subst h2
        exact h d0 hacd
      · rw [if_neg hmem] at hd
        injection hd with h2
        subst h2
        exact nodup_append_one hmem (h d0 hacd)
  | cleanup =>
    show JoinedNodup (cleanupCall st)
    intro d hd
    exact Option.noConfusion hd

/-- C9 (confirmed). Under any sequence of call-subsystem events the
`joinedIds` of the active call session never contains duplicates — every
appending path (remote ANSWER, peer connection reaching connected state)
checks membership first — and repeated ANSWER or connection events for
the same peer are idempotent on `joinedIds`. -/
theorem joinedIds_nodup_invariant :
    (∀ (es : List CallEvent) (st : AppState), JoinedNodup st →
        JoinedNodup (es.foldl (fun s e => step e s) st)) ∧
    (∀ (st : AppState) (B : String),
        (handleAnswer B (handleAnswer B st)).activeCallData.map CallData.joinedIds =
          (handleAnswer B st).activeCallData.map CallData.joinedIds) ∧
    (∀ (st : AppState) (B : String),
        (onPeerConnected B (onPeerConnected B st)).activeCallData.map
            CallData.joinedIds =
          (onPeerConnected B st).activeCallData.map CallData.joinedIds) := by
  refine ⟨?_, ?_, ?_⟩
  · intro es
    induction es with
    | nil => intro st h; exact h
    | cons e rest ih =>
      intro st h
      rw [List.foldl_cons]
      exact ih (step e st) (step_joined_nodup e st h)
  · intro st B
    rcases hpc : findEntry B st.peerConns with _ | pc
    · have hid : handleAnswer B st = st := by
        unfold handleAnswer
        rw [hpc]
      rw [hid, hid]
    · unfold handleAnswer
      rw [hpc]
      dsimp only
      rw [findEntry_setEntry_self]
      dsimp only
      rcases hacd : st.activeCallData with _ | d0
      · rfl
      · dsimp only
        by_cases hmem : B ∈ d0.joinedIds
        · rw [if_pos hmem]
          dsimp only
          rw [if_pos hmem]
        · rw [if_neg hmem]
          dsimp only
          rw [if_pos (by simp : B ∈ d0.joinedIds ++ [B])]
  · intro st B
    unfold onPeerConnected
    dsimp only
    rcases hacd : st.activeCallData with _ | d0
    · rfl
    · dsimp only
      by_cases hmem : B ∈ d0.joinedIds
      · rw [if_pos hmem]
        dsimp only
        rw [if_pos hmem]
      · rw [if_neg hmem]
        dsimp only
        rw [if_pos (by simp : B ∈ d0.joinedIds ++ [B])]

/-- A concrete two-party call state for C9's witness. -/
def c9State : AppState :=
  { myId := "A", isInCall := true,
    activeCallData := some { invitedIds := ["B", "C"], joinedIds := ["B"],
                             isVideo := false },
    activeCallId := some "c9",
    peerConns := [("B", { hasRemoteDescription := true }), ("C", {})] }

/-- C9 witness: duplicate ANSWER and connected events for the same peers
leave `joinedIds` duplicate-free. -/
theorem joinedIds_nodup_invariant_witness :
    JoinedNodup
      ([CallEvent.answer "C", CallEvent.answer "C", CallEvent.peerConnected "B",
        CallEvent.peerConnected "C"].foldl (fun s e => step e s) c9State) ∧
    (handleAnswer "C" (handleAnswer "C" c9State)).activeCallData.map
        CallData.joinedIds =
      (handleAnswer "C" c9State).activeCallData.map CallData.joinedIds := by
  constructor
  · refine joinedIds_nodup_invariant.1 _ c9State ?_
    intro d hd
    have h2 : ({ invitedIds := ["B", "C"], joinedIds := ["B"], isVideo := false } : CallData) = d := Option.some.inj hd
    rw [← h2]
    decide
  · exact joinedIds_nodup_invariant.2.1 c9State "C"

end CallCore
